import Mathlib

/-!
Verification of the geometric and color logic of the GIMP python-fu scripts
"Draw-Flower-Of-Life-v1.01.py", "yin-yang-1-05.py" and "yin-yang-1-02.py".

The scripts are shallowly embedded:
* floating point geometry is modelled over the real numbers (`Real.sin`, `Real.cos`),
* the float arithmetic of the `colorsys` HLS conversions is modelled over `ℚ`,
* the sequence of calls the scripts issue against the GIMP `pdb` object is
  modelled as a list of commands produced by pure trace functions, with the
  host's `math.sin` / `math.cos` implementations abstracted as function
  parameters where only the command structure matters.
-/

/-- Faithful embedding of `get_point_on_circle` from Draw-Flower-Of-Life-v1.01.py
(lines 563-583): `x = sin(angle)*radius + focus[0]`, `y = cos(angle)*(-radius) + focus[1]`.
The sine and cosine implementations are parameters so that the same definition
serves the real-number geometry claims and the rational command traces. -/
def get_point_on_circle {α : Type} [CommRing α] (fsin fcos : α → α)
    (focus_point : α × α) (angle radius : α) : α × α :=
  (fsin angle * radius + focus_point.1, fcos angle * (-radius) + focus_point.2)

/-- The constant `DEGREE_60 = 1.0472` from Draw-Flower-Of-Life-v1.01.py line 103. -/
noncomputable def DEGREE_60 : ℝ := 1.0472

/-- The six ring points of the spec's example: center (0,0), radius 10,
angle k times 60 degrees (in exact radians). -/
noncomputable def ring_example_point (k : ℕ) : ℝ × ℝ :=
  get_point_on_circle Real.sin Real.cos ((0 : ℝ), (0 : ℝ)) ((k : ℝ) * (Real.pi / 3)) 10

/-- An RGB color with integer components (the GIMP dialog delivers 0..255). -/
abbrev Color := ℕ × ℕ × ℕ

/-- `RING_COLORS_COUNT = 7` from Draw-Flower-Of-Life-v1.01.py line 117. -/
def RING_COLORS_COUNT : ℕ := 7

/-- Read indices of one clamp-free perimeter pass of `draw_6th_ring`
(first two passes, lines 308-331): for `i in range(3)` read `extra_ring[i + k]`. -/
def pass_read_indices (k : ℕ) : List ℕ :=
  (List.range 3).map (fun i => i + k)

/-- Read indices of the third perimeter pass of `draw_6th_ring` (lines 336-348):
for `i in range(3)`, if `i + k > 11` both `i` and `k` are reset to 0 before the
read, and the reset `k` persists for the remaining iterations of the pass. -/
def pass3_read_indices (k0 : ℕ) : List ℕ :=
  ((List.range 3).foldl
    (fun (st : ℕ × List ℕ) i =>
      if i + st.1 > 11 then (0, st.2 ++ [0]) else (st.1, st.2 ++ [i + st.1]))
    (k0, [])).2

/-- All indices at which `draw_6th_ring` reads `extra_ring`: the three perimeter
passes with `k` drawn from `(0, 2)`, `(4, 6)` and `(8, 10)` respectively. -/
def draw_6th_ring_read_indices : List ℕ :=
  (pass_read_indices 0 ++ pass_read_indices 2) ++
    (pass_read_indices 4 ++ pass_read_indices 6) ++
    (pass3_read_indices 8 ++ pass3_read_indices 10)

/-- Random color generation of `render_flower` (lines 689-692): for each of the
7 ring colors, each of the 3 components is drawn from the host's random stream
(`random.randint(0, 255)`), modelled as an abstract stream of naturals. -/
def random_ring_colors (stream : ℕ → ℕ) : List Color :=
  (List.range RING_COLORS_COUNT).map
    (fun i => (stream (3 * i), stream (3 * i + 1), stream (3 * i + 2)))

/-- Frame color computation of `render_flower` (lines 694-705): component-wise
sums over the 7 ring colors, each divided by `RING_COLORS_COUNT` (Python 2
`int(r / 7)` on nonnegative ints is floor division). -/
def random_frame_color (colors : List Color) : Color :=
  let s := colors.foldl (fun acc c => (acc.1 + c.1, acc.2.1 + c.2.1, acc.2.2 + c.2.2)) (0, 0, 0)
  (s.1 / RING_COLORS_COUNT, s.2.1 / RING_COLORS_COUNT, s.2.2 / RING_COLORS_COUNT)

/-- Modelled from the spec's words: the integer-truncated arithmetic mean of a
list of colors, component-wise. -/
def truncated_mean_color (colors : List Color) : Color :=
  ((colors.map (fun c => c.1)).sum / colors.length,
    (colors.map (fun c => c.2.1)).sum / colors.length,
    (colors.map (fun c => c.2.2)).sum / colors.length)

/-- The constant zero random stream, used as a witness instantiation. -/
def zero_stream : ℕ → ℕ := fun _ => 0

/-- The list `ring_colors = [color1, ..., color7]` from `render_flower` line 653. -/
def ring_colors_list (c1 c2 c3 c4 c5 c6 c7 : Color) : List Color :=
  [c1, c2, c3, c4, c5, c6, c7]

/-- A drawing step of the colored flower: the center circle or one of the six
rings, together with the fill color it receives. -/
inductive FlowerPart where
  | centerCircle (color : Color)
  | ringCircles (ring : ℕ) (color : Color)
  deriving DecidableEq

/-- `draw_colored_flower` (lines 391-410): the center circle is drawn with
`ring_colors[0]`, then the six ring functions are enumerated in order and ring
`x` is drawn with `ring_colors[x + 1]`. -/
def draw_colored_flower (colors : List Color) : List FlowerPart :=
  FlowerPart.centerCircle (colors.getD 0 (0, 0, 0)) ::
    (List.range 6).map (fun x => FlowerPart.ringCircles x (colors.getD (x + 1) (0, 0, 0)))

/-- The angle normalization of the animation loop of render_yin_yang
(yin-yang-1-05.py lines 420-425): keep the angle in GIMP rotation bounds. -/
def normalize_angle (a : ℚ) : ℚ :=
  if a > 180 then -360 + a else if a < -180 then 360 + a else a

/-- The angles passed to `gimp_item_transform_rotate`, one per copied frame:
normalize the running angle, use it, then add the per-frame rotation. -/
def applied_angles_aux (rotation : ℚ) : ℕ → ℚ → List ℚ
  | 0, _ => []
  | k + 1, a =>
    let a1 := normalize_angle a
    a1 :: applied_angles_aux rotation k (a1 + rotation)

/-- The full list of applied rotation angles of the animation loop
(yin-yang-1-05.py lines 412-442): `rotation = angle = 360 / frame_count * (1, -1)[direction]`
and `frame_count - 1` frames are produced. -/
def applied_angles (frame_count : ℕ) (direction : Bool) : List ℚ :=
  let rotation : ℚ := 360 / (frame_count : ℚ) * (if direction then -1 else 1)
  applied_angles_aux rotation (frame_count - 1) rotation

/-- Python's `colorsys.rgb_to_hls` on floats, modelled over the rationals.
Input channels in [0, 1]; returns (h, l, s) with `h = (h0 / 6) % 1.0`
modelled by `Int.fract`. -/
def rgb_to_hls (r g b : ℚ) : ℚ × ℚ × ℚ :=
  let maxc := max r (max g b)
  let minc := min r (min g b)
  let sumc := maxc + minc
  let rangec := maxc - minc
  let l := sumc / 2
  if minc = maxc then (0, l, 0) else
  let s := if l ≤ 1 / 2 then rangec / sumc else rangec / (2 - sumc)
  let rc := (maxc - r) / rangec
  let gc := (maxc - g) / rangec
  let bc := (maxc - b) / rangec
  let h0 := if r = maxc then bc - gc else if g = maxc then 2 + rc - bc else 4 + gc - rc
  (Int.fract (h0 / 6), l, s)

/-- The helper `_v(m1, m2, hue)` of Python's `colorsys` module, with the float
constants ONE_SIXTH = 1/6 and TWO_THIRD = 2/3 taken exactly; `hue % 1.0` is
`Int.fract`. -/
def colorsys_v (m1 m2 hue : ℚ) : ℚ :=
  let hue2 := Int.fract hue
  if hue2 < 1 / 6 then m1 + (m2 - m1) * hue2 * 6
  else if hue2 < 1 / 2 then m2
  else if hue2 < 2 / 3 then m1 + (m2 - m1) * (2 / 3 - hue2) * 6
  else m1

/-- Python's `colorsys.hls_to_rgb`, modelled over the rationals. -/
def hls_to_rgb (h l s : ℚ) : ℚ × ℚ × ℚ :=
  if s = 0 then (l, l, l) else
  let m2 := if l ≤ 1 / 2 then l * (1 + s) else l + s - l * s
  let m1 := 2 * l - m2
  (colorsys_v m1 m2 (h + 1 / 3), colorsys_v m1 m2 h, colorsys_v m1 m2 (h - 1 / 3))

/-- `c[i] / 255.0`: an integer color channel scaled to [0, 1]. -/
def to_unit (n : ℕ) : ℚ := (n : ℚ) / 255

/-- `int(rgb[i] * 255)` on a value in [0, 1]: truncation, which equals floor
for nonnegative values. -/
def to_byte (q : ℚ) : ℕ := (⌊q * 255⌋).toNat

/-- Mode constants of yin-yang-1-05.py line 135:
`_, YY_GRADIENT, YY_INVERTED_COLOR, YY_POLAR_HUE, YY_POLAR_LIGHTNESS,
YY_POLAR_SATURATION, YY_PATTERN = range(7)`. -/
def YY_GRADIENT : ℕ := 1

def YY_INVERTED_COLOR : ℕ := 2

def YY_POLAR_HUE : ℕ := 3

def YY_POLAR_LIGHTNESS : ℕ := 4

def YY_POLAR_SATURATION : ℕ := 5

def YY_PATTERN : ℕ := 6

/-- The Polar Hue derivation of yin-yang-1-05.py lines 330-358 specialized to
`mode == YY_POLAR_HUE`: scale to [0,1], convert to HLS, replace h by 1 - h,
convert back, scale by 255 and truncate. -/
def polar_hue_inversion (c : Color) : Color :=
  let hls := rgb_to_hls (to_unit c.1) (to_unit c.2.1) (to_unit c.2.2)
  let rgb := hls_to_rgb (1 - hls.1) hls.2.1 hls.2.2
  (to_byte rgb.1, to_byte rgb.2.1, to_byte rgb.2.2)

/-- The Polar Lightness derivation (`mode == YY_POLAR_LIGHTNESS`): the
lightness channel is replaced by 1 - l. -/
def polar_lightness_inversion (c : Color) : Color :=
  let hls := rgb_to_hls (to_unit c.1) (to_unit c.2.1) (to_unit c.2.2)
  let rgb := hls_to_rgb hls.1 (1 - hls.2.1) hls.2.2
  (to_byte rgb.1, to_byte rgb.2.1, to_byte rgb.2.2)

/-- The Polar Saturation derivation (the final `else`): the saturation channel
is replaced by 1 - s. -/
def polar_saturation_inversion (c : Color) : Color :=
  let hls := rgb_to_hls (to_unit c.1) (to_unit c.2.1) (to_unit c.2.2)
  let rgb := hls_to_rgb hls.1 hls.2.1 (1 - hls.2.2)
  (to_byte rgb.1, to_byte rgb.2.1, to_byte rgb.2.2)

/-- The color-mode switch of `render_yin_yang` in yin-yang-1-05.py (lines
323-358): how Flow Color 2 is derived from Flow Color 1 before drawing.
Solid, Gradient and Pattern modes leave Flow Color 2 unchanged. -/
def compute_flow_color_2 (mode : ℕ) (flow_color_1 flow_color_2 : Color) : Color :=
  if mode = YY_INVERTED_COLOR then
    (255 - flow_color_1.1, 255 - flow_color_1.2.1, 255 - flow_color_1.2.2)
  else if mode = YY_POLAR_HUE ∨ mode = YY_POLAR_LIGHTNESS ∨ mode = YY_POLAR_SATURATION then
    if mode = YY_POLAR_HUE then polar_hue_inversion flow_color_1
    else if mode = YY_POLAR_LIGHTNESS then polar_lightness_inversion flow_color_1
    else polar_saturation_inversion flow_color_1
  else flow_color_2

/-- The color-mode switch of `render_yin_yang` in yin-yang-1-02.py (lines
298-328): mode 3 inverts the RGB components; modes 2 and 4 run the HLS
pipeline, inverting hue for mode 2 and saturation otherwise. -/
def compute_flow_color_2_v102 (mode : ℕ) (flow_color_1 flow_color_2 : Color) : Color :=
  if mode = 3 then
    (255 - flow_color_1.1, 255 - flow_color_1.2.1, 255 - flow_color_1.2.2)
  else if mode = 2 ∨ mode = 4 then
    if mode = 2 then polar_hue_inversion flow_color_1
    else polar_saturation_inversion flow_color_1
  else flow_color_2

/-- The Mode dialog options of yin-yang-1-05.py (register call, lines 490-501),
in order; the option index is the `mode` value passed to `render_yin_yang`. -/
def yy_mode_options : List String :=
  ["Flow Color 1 and Flow Color 2 / Solid",
    "Flow Color 1 and Flow Color 2 / Gradient",
    "Flow Color 1 and Polar Color",
    "Flow Color 1 and Polar Hue",
    "Flow Color 1 and Polar Lightness",
    "Flow Color 1 and Polar Saturation",
    "Flow Pattern 1 and Flow Pattern 2"]

/-- The Mode dialog options of yin-yang-1-02.py (register call): there are only
six; index 3 is named "Polar Lightness" and no option is named "Polar Color". -/
def yy_mode_options_v102 : List String :=
  ["Flow Color 1 and Flow Color 2 / Solid",
    "Flow Color 1 and Flow Color 2 / Gradient",
    "Flow Color 1 and Polar Hue",
    "Flow Color 1 and Polar Lightness",
    "Flow Color 1 and Polar Saturation",
    "Flow Pattern 1 and Flow Pattern 2"]

/-- `LINES, PETALS, CIRCLES = 0, 1, 2` from Draw-Flower-Of-Life-v1.01.py line 115. -/
def LINES : ℕ := 0

def PETALS : ℕ := 1

def CIRCLES : ℕ := 2

/-- `RANDOM_COLORS = 2` from Draw-Flower-Of-Life-v1.01.py line 120. -/
def RANDOM_COLORS : ℕ := 2

/-- `BLACK = (0, 0, 0)` from Draw-Flower-Of-Life-v1.01.py line 91. -/
def BLACK : Color := (0, 0, 0)

/-- `WHITE = (255, 255, 255)` from Draw-Flower-Of-Life-v1.01.py line 92. -/
def WHITE : Color := (255, 255, 255)

/-- GIMP channel operation codes used by the scripts. -/
def CHANNEL_OP_ADD : ℕ := 0

def CHANNEL_OP_SUBTRACT : ℕ := 1

def CHANNEL_OP_REPLACE : ℕ := 2

/-- The rational counterparts of the degree constants of
Draw-Flower-Of-Life-v1.01.py lines 100-108, used by the command traces. -/
def DEGREE_60Q : ℚ := 1.0472

def DEGREE_120Q : ℚ := 2.0944

def DEGREE_180Q : ℚ := 3.14159

def DEGREE_240Q : ℚ := 4.18879

def DEGREE_300Q : ℚ := 5.23599

/-- The calls the scripts issue against the GIMP `pdb`, with the data the
claims depend on. Coordinates are rationals; host-side layer bookkeeping calls
(masks, visibility, copies, renames, invert, color-to-alpha) are collapsed to
`layerOp`, and context-setting calls to `contextSet`. -/
inductive Cmd where
  | contextPush
  | contextPop
  | contextSet
  | newImage
  | displayNew
  | newLayer (name : String)
  | undoStart
  | undoEnd
  | selectEllipse (op : ℕ) (x y w h : ℚ)
  | selectRect (op : ℕ) (x y w h : ℚ)
  | selectColor
  | selectNone
  | fillBucket (color : Color)
  | fillPattern
  | fillGradientCmd
  | fillLayer (color : Color)
  | mergeVisible
  | mergeDown
  | layerOp
  | rotateLayer (angle : ℚ)
  | flipLayer
  | scaleImage (w h : ℕ)
  | cropImage
  | message
  | displaysFlush
  | gradientNew
  | gradientSegment
  | gradientDelete
  deriving DecidableEq

/-- The global geometry state `render_flower` computes before drawing
(lines 641-668), threaded through the drawing helpers in place of the
script's module-level globals. `fsin`/`fcos` stand for the host's float
`math.sin`/`math.cos`. -/
structure FlowerCtx where
  flower_type : ℕ
  line_width : ℕ
  circle_radius : ℕ
  circle_diameter : ℕ
  image_center : ℕ
  image_size : ℕ
  flower_radius : ℕ
  frame_width : ℕ
  scale_size : ℕ
  fsin : ℚ → ℚ
  fcos : ℚ → ℚ

/-- `fill_circle` (lines 530-546): set the foreground, bucket-fill. -/
def fill_circle_trace (color : Color) : List Cmd :=
  [Cmd.contextSet, Cmd.fillBucket color]

/-- `fill_layer` (lines 549-560): set the foreground, fill the layer. -/
def fill_layer_trace (color : Color) : List Cmd :=
  [Cmd.contextSet, Cmd.fillLayer color]

/-- `draw_circle_selection` (lines 380-388). -/
def draw_circle_selection_trace (ctx : FlowerCtx) (x y : ℚ) : List Cmd :=
  [Cmd.selectEllipse CHANNEL_OP_ADD x y (ctx.circle_diameter : ℚ) (ctx.circle_diameter : ℚ)]

/-- `draw_flower_circle` (lines 413-454): in Lines mode an annulus made of an
added outer and subtracted inner ellipse, otherwise a single circle selection;
then fill and clear the selection. -/
def draw_flower_circle_trace (ctx : FlowerCtx) (x y : ℚ) (color : Color) : List Cmd :=
  let x1 := x - (ctx.circle_radius : ℚ)
  let y1 := y - (ctx.circle_radius : ℚ)
  if ctx.flower_type = LINES then
    let x2 := x1 - (ctx.line_width / 2 : ℕ)
    let y2 := y1 - (ctx.line_width / 2 : ℕ)
    let dim1 := (ctx.circle_diameter : ℚ) + (ctx.line_width : ℚ)
    let dim2 := (ctx.circle_diameter : ℚ) - (ctx.line_width : ℚ)
    Cmd.newLayer "Circle" ::
      Cmd.selectEllipse CHANNEL_OP_ADD x2 y2 dim1 dim1 ::
      Cmd.selectEllipse CHANNEL_OP_SUBTRACT (x2 + ctx.line_width) (y2 + ctx.line_width)
        dim2 dim2 ::
      fill_circle_trace color ++ [Cmd.selectNone]
  else
    Cmd.newLayer "Circle" ::
      draw_circle_selection_trace ctx x1 y1 ++ fill_circle_trace color ++ [Cmd.selectNone]

/-- The loop of `draw_1st_ring`/`draw_2nd_ring` (lines 192-225): draw at the
current point, advance the angle by `DEGREE_60`, recompute the point on the
circle of the given radius around the image focus. -/
def ring_loop_trace (ctx : FlowerCtx) (color : Color) (radius : ℚ) :
    ℕ → ℚ → ℚ × ℚ → List Cmd
  | 0, _, _ => []
  | n + 1, angle, p =>
    draw_flower_circle_trace ctx p.1 p.2 color ++
      ring_loop_trace ctx color radius n (angle + DEGREE_60Q)
        (get_point_on_circle ctx.fsin ctx.fcos
          ((ctx.image_center : ℚ), (ctx.image_center : ℚ)) (angle + DEGREE_60Q) radius)

/-- `draw_1st_ring` (lines 192-206). -/
def draw_1st_ring_trace (ctx : FlowerCtx) (color : Color) : List Cmd :=
  ring_loop_trace ctx color (ctx.circle_radius : ℚ) 6 0
    ((ctx.image_center : ℚ), (ctx.image_center : ℚ) - (ctx.circle_radius : ℚ))

/-- `draw_2nd_ring` (lines 209-225): same loop at twice the circle radius. -/
def draw_2nd_ring_trace (ctx : FlowerCtx) (color : Color) : List Cmd :=
  ring_loop_trace ctx color ((ctx.circle_radius : ℚ) * 2) 6 0
    ((ctx.image_center : ℚ), (ctx.image_center : ℚ) - (ctx.circle_radius : ℚ) * 2)

/-- The focus points stored in `ring_center` by `draw_3rd_ring` (lines 228-246):
rotate around the focus by `i * 60` degrees, then around the result by another
60 degrees. -/
def ring_center_points (ctx : FlowerCtx) : List (ℚ × ℚ) :=
  (List.range 6).map (fun i =>
    get_point_on_circle ctx.fsin ctx.fcos
      (get_point_on_circle ctx.fsin ctx.fcos
        ((ctx.image_center : ℚ), (ctx.image_center : ℚ)) ((i : ℚ) * DEGREE_60Q)
        (ctx.circle_radius : ℚ))
      ((i : ℚ) * DEGREE_60Q + DEGREE_60Q) (ctx.circle_radius : ℚ))

/-- `draw_3rd_ring` (lines 228-246): one circle at each stored center. -/
def draw_3rd_ring_trace (ctx : FlowerCtx) (color : Color) : List Cmd :=
  (ring_center_points ctx).bind (fun p => draw_flower_circle_trace ctx p.1 p.2 color)

/-- `draw_4th_ring` (lines 249-270): two circles around each stored center, at
angles `i * 60` and `(i + 1) * 60`. -/
def draw_4th_ring_trace (ctx : FlowerCtx) (color : Color) : List Cmd :=
  (List.range 6).bind (fun i =>
    let ab := (ring_center_points ctx).getD i (0, 0)
    let p1 := get_point_on_circle ctx.fsin ctx.fcos ab ((i : ℚ) * DEGREE_60Q)
      (ctx.circle_radius : ℚ)
    let p2 := get_point_on_circle ctx.fsin ctx.fcos ab ((i : ℚ) * DEGREE_60Q + DEGREE_60Q)
      (ctx.circle_radius : ℚ)
    draw_flower_circle_trace ctx p1.1 p1.2 color ++ draw_flower_circle_trace ctx p2.1 p2.2 color)

/-- `draw_5th_ring` (lines 273-286): circles at three times the circle radius. -/
def draw_5th_ring_trace (ctx : FlowerCtx) (color : Color) : List Cmd :=
  (List.range 6).bind (fun i =>
    let p := get_point_on_circle ctx.fsin ctx.fcos
      ((ctx.image_center : ℚ), (ctx.image_center : ℚ)) ((i : ℚ) * DEGREE_60Q)
      ((ctx.circle_radius : ℚ) * 3)
    draw_flower_circle_trace ctx p.1 p.2 color)

/-- The twelve perimeter points `draw_6th_ring` stores in `extra_ring`
(lines 296-302): `extra_ring[2i]` rotated by `(i - 1) * 60` degrees around the
stored ring center, `extra_ring[2i + 1]` the stored ring center itself. -/
def extra_ring_points (ctx : FlowerCtx) : List (ℚ × ℚ) :=
  (List.range 6).bind (fun i =>
    let ab := (ring_center_points ctx).getD i (0, 0)
    [get_point_on_circle ctx.fsin ctx.fcos ab ((i : ℚ) * DEGREE_60Q - DEGREE_60Q)
      (ctx.circle_radius : ℚ), ab])

/-- One perimeter pass of `draw_6th_ring`: read `extra_ring` at the given
indices, rotate twice, draw. -/
def pass_circle_trace (ctx : FlowerCtx) (color : Color) (idxs : List ℕ) (a1 a2 : ℚ) :
    List Cmd :=
  idxs.bind (fun idx =>
    let ab := (extra_ring_points ctx).getD idx (0, 0)
    let cd := get_point_on_circle ctx.fsin ctx.fcos ab a1 (ctx.circle_radius : ℚ)
    let xy := get_point_on_circle ctx.fsin ctx.fcos cd a2 (ctx.circle_radius : ℚ)
    draw_flower_circle_trace ctx xy.1 xy.2 color)

/-- `draw_6th_ring` (lines 289-348): the three perimeter pass pairs, with the
angle pairs starting at (0, 60), (120, 180) and (240, 300) degrees (the
script's rounded constants) and the third pass using the clamped indices. -/
def draw_6th_ring_trace (ctx : FlowerCtx) (color : Color) : List Cmd :=
  pass_circle_trace ctx color (pass_read_indices 0) 0 DEGREE_60Q ++
    pass_circle_trace ctx color (pass_read_indices 2) DEGREE_60Q (DEGREE_60Q + DEGREE_60Q) ++
    pass_circle_trace ctx color (pass_read_indices 4) DEGREE_120Q DEGREE_180Q ++
    pass_circle_trace ctx color (pass_read_indices 6) (DEGREE_120Q + DEGREE_60Q)
      (DEGREE_180Q + DEGREE_60Q) ++
    pass_circle_trace ctx color (pass3_read_indices 8) DEGREE_240Q DEGREE_300Q ++
    pass_circle_trace ctx color (pass3_read_indices 10) (DEGREE_240Q + DEGREE_60Q)
      (DEGREE_300Q + DEGREE_60Q)

/-- `draw_center_circle` (lines 369-377). -/
def draw_center_circle_trace (ctx : FlowerCtx) (color : Color) : List Cmd :=
  draw_flower_circle_trace ctx (ctx.image_center : ℚ) (ctx.image_center : ℚ) color

/-- `draw_frame` (lines 457-498): nothing at all when `frame_width` is zero,
otherwise the ring-frame selection, a new layer, the fill, a merge-down and
clearing the selection. -/
def draw_frame_trace (ctx : FlowerCtx) (color : Color) : List Cmd :=
  if ctx.frame_width ≠ 0 then
    let flower_dim : ℚ := (ctx.flower_radius : ℚ) * 2 +
      (if ctx.flower_type = LINES then (ctx.line_width : ℚ) else 0)
    let frame_dim : ℚ := (ctx.flower_radius : ℚ) * 2 + (ctx.frame_width : ℚ) * 2 +
      (if ctx.flower_type = LINES then (ctx.line_width : ℚ) else 0)
    let a1 : ℚ := (ctx.image_center : ℚ) - (ctx.flower_radius : ℚ) - (ctx.frame_width : ℚ) -
      (if ctx.flower_type = LINES then ((ctx.line_width / 2 : ℕ) : ℚ) else 0)
    let a2 : ℚ := (ctx.image_center : ℚ) - (ctx.flower_radius : ℚ) -
      (if ctx.flower_type = LINES then ((ctx.line_width / 2 : ℕ) : ℚ) else 0)
    Cmd.selectEllipse CHANNEL_OP_ADD a1 a1 frame_dim frame_dim ::
      Cmd.selectEllipse CHANNEL_OP_SUBTRACT a2 a2 flower_dim flower_dim ::
      Cmd.newLayer "Frame" ::
      fill_circle_trace color ++ [Cmd.mergeDown, Cmd.selectNone]
  else []

/-- `draw_gradient` (lines 501-527). -/
def draw_gradient_trace : List Cmd :=
  [Cmd.newLayer "Gradient", Cmd.gradientNew, Cmd.gradientSegment, Cmd.gradientSegment,
    Cmd.contextSet, Cmd.fillGradientCmd, Cmd.gradientDelete]

/-- `draw_black_and_white` (lines 351-366): white center circle, the six rings
each followed by a merge of the visible layers, then the frame. -/
def draw_black_and_white_trace (ctx : FlowerCtx) : List Cmd :=
  draw_center_circle_trace ctx WHITE ++
    (draw_1st_ring_trace ctx WHITE ++ [Cmd.mergeVisible]) ++
    (draw_2nd_ring_trace ctx WHITE ++ [Cmd.mergeVisible]) ++
    (draw_3rd_ring_trace ctx WHITE ++ [Cmd.mergeVisible]) ++
    (draw_4th_ring_trace ctx WHITE ++ [Cmd.mergeVisible]) ++
    (draw_5th_ring_trace ctx WHITE ++ [Cmd.mergeVisible]) ++
    (draw_6th_ring_trace ctx WHITE ++ [Cmd.mergeVisible]) ++
    draw_frame_trace ctx WHITE

/-- `create_bw_alpha` (lines 126-189): black mask layer, the twelve perimeter
circles, the doubled center circle, the white fill, the frame, and the
mask/layer bookkeeping. -/
def create_bw_alpha_trace (ctx : FlowerCtx) : List Cmd :=
  let dim1 : ℚ := (ctx.circle_diameter : ℚ) +
    (if ctx.flower_type = LINES then (ctx.line_width : ℚ) else 0)
  let off : ℚ := (ctx.circle_radius : ℚ) +
    (if ctx.flower_type = LINES then ((ctx.line_width / 2 : ℕ) : ℚ) else 0)
  let cx : ℚ := (ctx.image_center : ℚ) - (ctx.circle_diameter : ℚ)
  (if ctx.flower_type = PETALS then [Cmd.layerOp] else []) ++
    Cmd.newLayer "Mask" :: fill_layer_trace BLACK ++
    (extra_ring_points ctx).map
      (fun p => Cmd.selectEllipse CHANNEL_OP_ADD (p.1 - off) (p.2 - off) dim1 dim1) ++
    [Cmd.selectEllipse CHANNEL_OP_ADD cx cx ((ctx.circle_diameter : ℚ) * 2)
      ((ctx.circle_diameter : ℚ) * 2)] ++
    draw_circle_selection_trace ctx cx cx ++
    fill_circle_trace WHITE ++ [Cmd.selectNone] ++
    draw_frame_trace ctx WHITE ++
    [Cmd.selectColor, Cmd.layerOp, Cmd.layerOp, Cmd.selectNone, Cmd.layerOp]

/-- `draw_colored_flower` (lines 391-410) as a command trace: the center circle
with `ring_colors[0]`, each ring with `ring_colors[x + 1]` followed by a merge,
the frame with the frame color, and the rename of the base layer. -/
def draw_colored_flower_trace (ctx : FlowerCtx) (colors : List Color)
    (frame_color : Color) : List Cmd :=
  draw_center_circle_trace ctx (colors.getD 0 (0, 0, 0)) ++
    (draw_1st_ring_trace ctx (colors.getD 1 (0, 0, 0)) ++ [Cmd.mergeVisible]) ++
    (draw_2nd_ring_trace ctx (colors.getD 2 (0, 0, 0)) ++ [Cmd.mergeVisible]) ++
    (draw_3rd_ring_trace ctx (colors.getD 3 (0, 0, 0)) ++ [Cmd.mergeVisible]) ++
    (draw_4th_ring_trace ctx (colors.getD 4 (0, 0, 0)) ++ [Cmd.mergeVisible]) ++
    (draw_5th_ring_trace ctx (colors.getD 5 (0, 0, 0)) ++ [Cmd.mergeVisible]) ++
    (draw_6th_ring_trace ctx (colors.getD 6 (0, 0, 0)) ++ [Cmd.mergeVisible]) ++
    draw_frame_trace ctx frame_color ++ [Cmd.layerOp]

/-- The context `render_flower` (lines 646-668) computes from its dialog
parameters; `SCALE = 2`, and Python 2 `int` truncation of nonnegative values is
natural-number division. -/
def flower_ctx (symbol_radius flower_part line_w frame_w : ℕ)
    (fsin fcos : ℚ → ℚ) : FlowerCtx :=
  let line_width := line_w * 2
  let scale_size := (symbol_radius * 2 + frame_w * 2 + 2) +
    (if flower_part = LINES then line_width else 0)
  let image_size := scale_size * 2
  { flower_type := flower_part
    line_width := line_width
    circle_radius := symbol_radius * 2 / 3
    circle_diameter := symbol_radius * 2 / 3 * 2
    image_center := image_size / 2
    image_size := image_size
    flower_radius := symbol_radius * 2
    frame_width := frame_w * 2
    scale_size := scale_size
    fsin := fsin
    fcos := fcos }

/-- All commands `render_flower` issues strictly between the undo-group start
and the undo-group end (lines 679-763). -/
def render_flower_mid_trace (symbol_radius mode flower_part : ℕ)
    (c1 c2 c3 c4 c5 c6 c7 : Color) (line_w frame_w : ℕ) (frame_col : Color)
    (stream : ℕ → ℕ) (fsin fcos : ℚ → ℚ) : List Cmd :=
  let ctx := flower_ctx symbol_radius flower_part line_w frame_w fsin fcos
  let colors := if mode = RANDOM_COLORS then random_ring_colors stream
    else ring_colors_list c1 c2 c3 c4 c5 c6 c7
  let frame_color := if mode = RANDOM_COLORS then
    random_frame_color (random_ring_colors stream) else frame_col
  Cmd.displayNew ::
    ((if mode ≠ 0 then
      Cmd.newLayer "Base" ::
        (if flower_part ≠ LINES then fill_layer_trace WHITE else []) ++
        draw_colored_flower_trace ctx colors frame_color ++
        draw_gradient_trace ++
        [Cmd.layerOp, Cmd.layerOp, Cmd.layerOp, Cmd.layerOp]
    else []) ++
    Cmd.newLayer "Base" ::
      (if flower_part ≠ LINES then fill_layer_trace WHITE else []) ++
      draw_black_and_white_trace ctx ++
      create_bw_alpha_trace ctx ++
      [Cmd.mergeVisible] ++
      (if mode ≠ 0 then
        [Cmd.layerOp, Cmd.layerOp, Cmd.layerOp, Cmd.layerOp, Cmd.layerOp, Cmd.layerOp,
          Cmd.mergeVisible, Cmd.message]
      else [Cmd.layerOp]) ++
      [Cmd.scaleImage ctx.scale_size ctx.scale_size])

/-- The full command trace of `render_flower` (lines 621-769): context push,
the two context settings, the new image, the undo-group start, everything in
between, the undo-group end, the context pop. -/
def render_flower_trace (symbol_radius mode flower_part : ℕ)
    (c1 c2 c3 c4 c5 c6 c7 : Color) (line_w frame_w : ℕ) (frame_col : Color)
    (stream : ℕ → ℕ) (fsin fcos : ℚ → ℚ) : List Cmd :=
  [Cmd.contextPush, Cmd.contextSet, Cmd.contextSet, Cmd.newImage] ++
    Cmd.undoStart ::
    (render_flower_mid_trace symbol_radius mode flower_part c1 c2 c3 c4 c5 c6 c7
        line_w frame_w frame_col stream fsin fcos ++
      Cmd.undoEnd :: [Cmd.contextPop])

/-- The geometry state `render_yin_yang` computes before drawing
(yin-yang-1-05.py lines 301-315), with `SCALE = 4` and `FRAME_WIDTH = 2`.
`flow_offset` adds the unscaled `rim_width` dialog value, exactly as the
script does. -/
structure YyCtx where
  mode : ℕ
  rim_width : ℕ
  image_size : ℕ
  center : ℚ
  flow_size : ℕ
  head_diameter : ℚ
  head_radius : ℚ
  eye_radius : ℚ
  eye_diameter : ℚ
  flow_offset : ℚ
  symbol_dimension : ℚ

/-- The context built by `render_yin_yang` from its dialog parameters. -/
def yy_ctx (symbol_diameter mode rim_width eye_divisor : ℕ) : YyCtx :=
  let rim_s := rim_width * 4
  let symbol_size := symbol_diameter * 4
  let image_size := symbol_size + 2 * 2
  let flow_size := symbol_size - rim_s * 2
  let head_diameter : ℚ := (flow_size : ℚ) / 2
  { mode := mode
    rim_width := rim_s
    image_size := image_size
    center := (image_size : ℚ) / 2
    flow_size := flow_size
    head_diameter := head_diameter
    head_radius := head_diameter / 2
    eye_radius := (flow_size : ℚ) / (eye_divisor : ℚ)
    eye_diameter := (flow_size : ℚ) / (eye_divisor : ℚ) * 2
    flow_offset := 2 + (rim_width : ℚ)
    symbol_dimension := (symbol_size : ℚ) }

/-- Python tuple indexing `(x, y)[i]` for `i` in 0..1. -/
def pysel (i : ℕ) (x y : ℚ) : ℚ := if i = 0 then x else y

/-- `draw_flow_selection` (yin-yang-1-05.py lines 159-167). -/
def draw_flow_selection_trace (ctx : YyCtx) (op : ℕ) : List Cmd :=
  [Cmd.selectEllipse op (2 + (ctx.rim_width : ℚ)) (2 + (ctx.rim_width : ℚ))
    (ctx.flow_size : ℚ) (ctx.flow_size : ℚ)]

/-- `draw_side` (yin-yang-1-05.py lines 170-245): the flow circle, the removed
half-plane rectangle, the added head and subtracted tail circles, the
subtracted eye and added reflection eye, then the gradient, pattern or solid
fill depending on the mode. -/
def draw_side_trace (ctx : YyCtx) (flow_color : Color) (i : ℕ) : List Cmd :=
  let eye_offset := ctx.head_diameter / 2
  let eye_x := ctx.center - ctx.eye_radius
  draw_flow_selection_trace ctx CHANNEL_OP_REPLACE ++
    [Cmd.selectRect CHANNEL_OP_SUBTRACT (pysel i 0 ctx.center) 0 ctx.center
        (ctx.image_size : ℚ),
      Cmd.selectEllipse CHANNEL_OP_ADD (ctx.center - ctx.head_radius)
        (pysel i ctx.center ctx.flow_offset) ctx.head_diameter ctx.head_diameter,
      Cmd.selectEllipse CHANNEL_OP_SUBTRACT (ctx.center - ctx.head_radius)
        (pysel i ctx.flow_offset ctx.center) ctx.head_diameter ctx.head_diameter,
      Cmd.selectEllipse CHANNEL_OP_SUBTRACT eye_x
        (pysel i (ctx.center + eye_offset - ctx.eye_radius)
          (ctx.center - eye_offset - ctx.eye_radius)) ctx.eye_diameter ctx.eye_diameter,
      Cmd.selectEllipse CHANNEL_OP_ADD eye_x
        (pysel i (ctx.center - eye_offset - ctx.eye_radius)
          (ctx.center + eye_offset - ctx.eye_radius)) ctx.eye_diameter ctx.eye_diameter] ++
    (if ctx.mode = YY_GRADIENT then [Cmd.contextSet, Cmd.fillGradientCmd]
      else if ctx.mode = YY_PATTERN then [Cmd.contextSet, Cmd.contextSet, Cmd.fillPattern]
      else [Cmd.contextSet, Cmd.fillBucket flow_color])

/-- `new_gradient` (yin-yang-1-05.py lines 260-279). -/
def new_gradient_trace : List Cmd :=
  [Cmd.gradientNew, Cmd.gradientSegment, Cmd.gradientSegment, Cmd.gradientSegment,
    Cmd.gradientSegment]

/-- The rim block of `render_yin_yang` (yin-yang-1-05.py lines 385-394): the
symbol circle selection, minus the flow selection, filled with the rim color;
skipped entirely when the scaled rim width is zero. -/
def rim_trace (ctx : YyCtx) (rim_color : Color) : List Cmd :=
  if ctx.rim_width ≠ 0 then
    Cmd.selectEllipse CHANNEL_OP_REPLACE 2 2 ctx.symbol_dimension ctx.symbol_dimension ::
      draw_flow_selection_trace ctx CHANNEL_OP_SUBTRACT ++
      [Cmd.contextSet, Cmd.fillBucket rim_color]
  else []

/-- All commands `render_yin_yang` issues strictly between the undo-group
start and the undo-group end (yin-yang-1-05.py lines 375-445). `frad` stands
for the host's float `math.radians`. -/
def render_yin_yang_mid_trace (symbol_diameter mode : ℕ)
    (flow_color_1 flow_color_2 rim_color : Color) (rim_width eye_divisor : ℕ)
    (direction : Bool) (frame_count : ℕ) (frad : ℚ → ℚ) : List Cmd :=
  let ctx := yy_ctx symbol_diameter mode rim_width eye_divisor
  let fc2 := compute_flow_color_2 mode flow_color_1 flow_color_2
  (if mode = 1 then new_gradient_trace ++ new_gradient_trace else []) ++
    draw_side_trace ctx flow_color_1 0 ++
    draw_side_trace ctx fc2 1 ++
    rim_trace ctx rim_color ++
    [Cmd.selectNone] ++
    (if direction then [Cmd.flipLayer] else []) ++
    [Cmd.scaleImage (ctx.image_size / 4) (ctx.image_size / 4)] ++
    (if 1 < frame_count then
      (applied_angles frame_count direction).bind (fun a =>
        [Cmd.layerOp, Cmd.layerOp, Cmd.layerOp, Cmd.rotateLayer (frad a),
          Cmd.displaysFlush, Cmd.cropImage])
    else []) ++
    (if mode = 1 then [Cmd.gradientDelete, Cmd.gradientDelete] else [])

/-- The full command trace of `render_yin_yang` (yin-yang-1-05.py lines
282-448): context push, the two context settings, image and base layer
creation, the display, the undo-group start, everything in between, the
undo-group end, the context pop. -/
def render_yin_yang_trace (symbol_diameter mode : ℕ)
    (flow_color_1 flow_color_2 rim_color : Color) (rim_width eye_divisor : ℕ)
    (direction : Bool) (frame_count : ℕ) (frad : ℚ → ℚ) : List Cmd :=
  [Cmd.contextPush, Cmd.contextSet, Cmd.contextSet, Cmd.newImage, Cmd.newLayer "Base",
      Cmd.layerOp, Cmd.displayNew] ++
    Cmd.undoStart ::
    (render_yin_yang_mid_trace symbol_diameter mode flow_color_1 flow_color_2 rim_color
        rim_width eye_divisor direction frame_count frad ++
      Cmd.undoEnd :: [Cmd.contextPop])

/-- Modelled from the spec: `draw_black_and_white` with the frame-drawing step
removed, for comparison against the real trace at zero frame width. -/
def draw_black_and_white_trace_nf (ctx : FlowerCtx) : List Cmd :=
  draw_center_circle_trace ctx WHITE ++
    (draw_1st_ring_trace ctx WHITE ++ [Cmd.mergeVisible]) ++
    (draw_2nd_ring_trace ctx WHITE ++ [Cmd.mergeVisible]) ++
    (draw_3rd_ring_trace ctx WHITE ++ [Cmd.mergeVisible]) ++
    (draw_4th_ring_trace ctx WHITE ++ [Cmd.mergeVisible]) ++
    (draw_5th_ring_trace ctx WHITE ++ [Cmd.mergeVisible]) ++
    (draw_6th_ring_trace ctx WHITE ++ [Cmd.mergeVisible])

/-- Modelled from the spec: `create_bw_alpha` with the frame-drawing step
removed. -/
def create_bw_alpha_trace_nf (ctx : FlowerCtx) : List Cmd :=
  let dim1 : ℚ := (ctx.circle_diameter : ℚ) +
    (if ctx.flower_type = LINES then (ctx.line_width : ℚ) else 0)
  let off : ℚ := (ctx.circle_radius : ℚ) +
    (if ctx.flower_type = LINES then ((ctx.line_width / 2 : ℕ) : ℚ) else 0)
  let cx : ℚ := (ctx.image_center : ℚ) - (ctx.circle_diameter : ℚ)
  (if ctx.flower_type = PETALS then [Cmd.layerOp] else []) ++
    Cmd.newLayer "Mask" :: fill_layer_trace BLACK ++
    (extra_ring_points ctx).map
      (fun p => Cmd.selectEllipse CHANNEL_OP_ADD (p.1 - off) (p.2 - off) dim1 dim1) ++
    [Cmd.selectEllipse CHANNEL_OP_ADD cx cx ((ctx.circle_diameter : ℚ) * 2)
      ((ctx.circle_diameter : ℚ) * 2)] ++
    draw_circle_selection_trace ctx cx cx ++
    fill_circle_trace WHITE ++ [Cmd.selectNone] ++
    [Cmd.selectColor, Cmd.layerOp, Cmd.layerOp, Cmd.selectNone, Cmd.layerOp]

/-- Modelled from the spec: `draw_colored_flower` with the frame-drawing step
removed. -/
def draw_colored_flower_trace_nf (ctx : FlowerCtx) (colors : List Color) : List Cmd :=
  draw_center_circle_trace ctx (colors.getD 0 (0, 0, 0)) ++
    (draw_1st_ring_trace ctx (colors.getD 1 (0, 0, 0)) ++ [Cmd.mergeVisible]) ++
    (draw_2nd_ring_trace ctx (colors.getD 2 (0, 0, 0)) ++ [Cmd.mergeVisible]) ++
    (draw_3rd_ring_trace ctx (colors.getD 3 (0, 0, 0)) ++ [Cmd.mergeVisible]) ++
    (draw_4th_ring_trace ctx (colors.getD 4 (0, 0, 0)) ++ [Cmd.mergeVisible]) ++
    (draw_5th_ring_trace ctx (colors.getD 5 (0, 0, 0)) ++ [Cmd.mergeVisible]) ++
    (draw_6th_ring_trace ctx (colors.getD 6 (0, 0, 0)) ++ [Cmd.mergeVisible]) ++
    [Cmd.layerOp]

/-- Modelled from the spec: the `render_flower` trace with every frame-drawing
step removed, for comparison at zero frame width. -/
def render_flower_trace_nf (symbol_radius mode flower_part : ℕ)
    (c1 c2 c3 c4 c5 c6 c7 : Color) (line_w frame_w : ℕ)
    (stream : ℕ → ℕ) (fsin fcos : ℚ → ℚ) : List Cmd :=
  let ctx := flower_ctx symbol_radius flower_part line_w frame_w fsin fcos
  let colors := if mode = RANDOM_COLORS then random_ring_colors stream
    else ring_colors_list c1 c2 c3 c4 c5 c6 c7
  [Cmd.contextPush, Cmd.contextSet, Cmd.contextSet, Cmd.newImage] ++
    Cmd.undoStart ::
    (Cmd.displayNew ::
      ((if mode ≠ 0 then
        Cmd.newLayer "Base" ::
          (if flower_part ≠ LINES then fill_layer_trace WHITE else []) ++
          draw_colored_flower_trace_nf ctx colors ++
          draw_gradient_trace ++
          [Cmd.layerOp, Cmd.layerOp, Cmd.layerOp, Cmd.layerOp]
      else []) ++
      Cmd.newLayer "Base" ::
        (if flower_part ≠ LINES then fill_layer_trace WHITE else []) ++
        draw_black_and_white_trace_nf ctx ++
        create_bw_alpha_trace_nf ctx ++
        [Cmd.mergeVisible] ++
        (if mode ≠ 0 then
          [Cmd.layerOp, Cmd.layerOp, Cmd.layerOp, Cmd.layerOp, Cmd.layerOp, Cmd.layerOp,
            Cmd.mergeVisible, Cmd.message]
        else [Cmd.layerOp]) ++
        [Cmd.scaleImage ctx.scale_size ctx.scale_size]) ++
      Cmd.undoEnd :: [Cmd.contextPop])

/-- Modelled from the spec: the `render_yin_yang` trace with the rim block
removed, for comparison at zero rim width. -/
def render_yin_yang_trace_nr (symbol_diameter mode : ℕ)
    (flow_color_1 flow_color_2 rim_color : Color) (rim_width eye_divisor : ℕ)
    (direction : Bool) (frame_count : ℕ) (frad : ℚ → ℚ) : List Cmd :=
  let ctx := yy_ctx symbol_diameter mode rim_width eye_divisor
  let fc2 := compute_flow_color_2 mode flow_color_1 flow_color_2
  [Cmd.contextPush, Cmd.contextSet, Cmd.contextSet, Cmd.newImage, Cmd.newLayer "Base",
      Cmd.layerOp, Cmd.displayNew] ++
    Cmd.undoStart ::
    ((if mode = 1 then new_gradient_trace ++ new_gradient_trace else []) ++
      draw_side_trace ctx flow_color_1 0 ++
      draw_side_trace ctx fc2 1 ++
      [Cmd.selectNone] ++
      (if direction then [Cmd.flipLayer] else []) ++
      [Cmd.scaleImage (ctx.image_size / 4) (ctx.image_size / 4)] ++
      (if 1 < frame_count then
        (applied_angles frame_count direction).bind (fun a =>
          [Cmd.layerOp, Cmd.layerOp, Cmd.layerOp, Cmd.rotateLayer (frad a),
            Cmd.displaysFlush, Cmd.cropImage])
      else []) ++
      (if mode = 1 then [Cmd.gradientDelete, Cmd.gradientDelete] else []) ++
      Cmd.undoEnd :: [Cmd.contextPop])

/-- Recognizes the undo-group start command. -/
def isUndoStart : Cmd → Bool
  | Cmd.undoStart => true
  | _ => false

/-- Recognizes the undo-group end command. -/
def isUndoEnd : Cmd → Bool
  | Cmd.undoEnd => true
  | _ => false

/-- Recognizes the selection, fill, merge and transform draw commands. -/
def isDraw : Cmd → Bool
  | Cmd.selectEllipse _ _ _ _ _ => true
  | Cmd.selectRect _ _ _ _ _ => true
  | Cmd.selectColor => true
  | Cmd.selectNone => true
  | Cmd.fillBucket _ => true
  | Cmd.fillPattern => true
  | Cmd.fillGradientCmd => true
  | Cmd.fillLayer _ => true
  | Cmd.mergeVisible => true
  | Cmd.mergeDown => true
  | Cmd.rotateLayer _ => true
  | Cmd.flipLayer => true
  | Cmd.scaleImage _ _ => true
  | Cmd.cropImage => true
  | _ => false

/-- A command allowed strictly inside the undo group: anything except the undo
commands themselves. -/
def cmd_ok (c : Cmd) : Bool := !(isUndoStart c) && !(isUndoEnd c)

/-- A command allowed outside the undo group: no undo command and no draw
command. -/
def cmd_quiet (c : Cmd) : Bool := cmd_ok c && !(isDraw c)

/-- Scanner state after the undo-group end: only quiet commands may follow. -/
def bracketScan2 : List Cmd → Bool
  | [] => true
  | c :: rest => if cmd_quiet c then bracketScan2 rest else false

/-- Scanner state inside the undo group: no further undo-group start, and
exactly one undo-group end must follow. -/
def bracketScan1 : List Cmd → Bool
  | [] => false
  | c :: rest =>
    if isUndoEnd c then bracketScan2 rest
    else if isUndoStart c then false
    else bracketScan1 rest

/-- Scanner state before the undo-group start: only quiet commands, then the
start. -/
def bracketScan0 : List Cmd → Bool
  | [] => false
  | c :: rest =>
    if isUndoStart c then bracketScan1 rest
    else if cmd_quiet c then bracketScan0 rest
    else false

/-- A trace forms a single undoable unit: one undo-group start, one undo-group
end, no draw command before the start or after the end. -/
def singleUndoBracket (t : List Cmd) : Bool := bracketScan0 t

theorem sqrt_three_bounds : (1.731 : ℝ) ≤ Real.sqrt 3 ∧ Real.sqrt 3 ≤ 1.733 := by
  have h3 : Real.sqrt 3 ^ 2 = 3 := Real.sq_sqrt (by norm_num)
  have hpos : (0 : ℝ) ≤ Real.sqrt 3 := Real.sqrt_nonneg 3
  constructor <;> nlinarith

/-- C1: `get_point_on_circle(F, a, r)` returns exactly
`(fx + sin(a)*r, fy - cos(a)*r)`; at angle 0 it returns `(fx, fy - r)`;
and for center (0,0), radius 10 the six ring points at 0°,60°,...,300° match
(0,-10), (8.66,-5), (8.66,5), (0,10), (-8.66,5), (-8.66,-5) to two decimals. -/
theorem C1_get_point_on_circle :
    (∀ fx fy a r : ℝ, get_point_on_circle Real.sin Real.cos (fx, fy) a r =
      (fx + Real.sin a * r, fy - Real.cos a * r)) ∧
    (∀ fx fy r : ℝ, get_point_on_circle Real.sin Real.cos (fx, fy) 0 r = (fx, fy - r)) ∧
    (|(ring_example_point 0).1 - 0| ≤ 1 / 200 ∧ |(ring_example_point 0).2 - (-10)| ≤ 1 / 200) ∧
    (|(ring_example_point 1).1 - 8.66| ≤ 1 / 200 ∧ |(ring_example_point 1).2 - (-5)| ≤ 1 / 200) ∧
    (|(ring_example_point 2).1 - 8.66| ≤ 1 / 200 ∧ |(ring_example_point 2).2 - 5| ≤ 1 / 200) ∧
    (|(ring_example_point 3).1 - 0| ≤ 1 / 200 ∧ |(ring_example_point 3).2 - 10| ≤ 1 / 200) ∧
    (|(ring_example_point 4).1 - (-8.66)| ≤ 1 / 200 ∧ |(ring_example_point 4).2 - 5| ≤ 1 / 200) ∧
    (|(ring_example_point 5).1 - (-8.66)| ≤ 1 / 200 ∧ |(ring_example_point 5).2 - (-5)| ≤ 1 / 200) := by
  have hs1 := sqrt_three_bounds.1
  have hs2 := sqrt_three_bounds.2
  have e1 : Real.sin (Real.pi / 3) = Real.sqrt 3 / 2 := Real.sin_pi_div_three
  have e2 : Real.cos (Real.pi / 3) = 1 / 2 := Real.cos_pi_div_three
  have a2 : ((2 : ℕ) : ℝ) * (Real.pi / 3) = Real.pi - Real.pi / 3 := by push_cast; ring
  have a3 : ((3 : ℕ) : ℝ) * (Real.pi / 3) = Real.pi := by push_cast; ring
  have a4 : ((4 : ℕ) : ℝ) * (Real.pi / 3) = Real.pi + Real.pi / 3 := by push_cast; ring
  have a5 : ((5 : ℕ) : ℝ) * (Real.pi / 3) = Real.pi + (Real.pi - Real.pi / 3) := by push_cast; ring
  have s4 : Real.sin (Real.pi + Real.pi / 3) = -(Real.sqrt 3 / 2) := by
    rw [Real.sin_add, Real.sin_pi, Real.cos_pi, e1]; ring
  have c4 : Real.cos (Real.pi + Real.pi / 3) = -(1 / 2) := by
    rw [Real.cos_add, Real.sin_pi, Real.cos_pi, e2]; ring
  have s5 : Real.sin (Real.pi + (Real.pi - Real.pi / 3)) = -(Real.sqrt 3 / 2) := by
    rw [Real.sin_add, Real.sin_pi, Real.cos_pi, Real.sin_pi_sub, e1]; ring
  have c5 : Real.cos (Real.pi + (Real.pi - Real.pi / 3)) = 1 / 2 := by
    rw [Real.cos_add, Real.sin_pi, Real.cos_pi, Real.cos_pi_sub, e2]; ring
  refine ⟨fun fx fy a r => ?_, fun fx fy r => ?_, ?_, ?_, ?_, ?_, ?_, ?_⟩
  · simp only [get_point_on_circle, Prod.mk.injEq]
    constructor <;> ring
  · simp only [get_point_on_circle, Real.sin_zero, Real.cos_zero, Prod.mk.injEq]
    constructor <;> ring
  · simp [ring_example_point, get_point_on_circle]
  · simp only [ring_example_point, get_point_on_circle, Nat.cast_one, one_mul, e1, e2]
    constructor
    · rw [abs_le]; constructor <;> nlinarith
    · rw [abs_le]; constructor <;> norm_num
  · simp only [ring_example_point, get_point_on_circle, a2, Real.sin_pi_sub, Real.cos_pi_sub,
      e1, e2]
    constructor
    · rw [abs_le]; constructor <;> nlinarith
    · rw [abs_le]; constructor <;> norm_num
  · simp only [ring_example_point, get_point_on_circle, a3, Real.sin_pi, Real.cos_pi]
    constructor
    · rw [abs_le]; constructor <;> norm_num
    · rw [abs_le]; constructor <;> norm_num
  · simp only [ring_example_point, get_point_on_circle, a4, s4, c4]
    constructor
    · rw [abs_le]; constructor <;> nlinarith
    · rw [abs_le]; constructor <;> norm_num
  · simp only [ring_example_point, get_point_on_circle, a5, s5, c5]
    constructor
    · rw [abs_le]; constructor <;> nlinarith
    · rw [abs_le]; constructor <;> norm_num

/-- C6: stepping six times by the code's `DEGREE_60 = 1.0472` constant,
the point at the accumulated angle `6 * DEGREE_60` lies within `r/10000`
of the ring's first point `(cx, cy - r)` (the starting point of
`draw_1st_ring`), in each coordinate. -/
theorem C6_full_ring_closes (cx cy r : ℝ) (hr : 0 ≤ r) :
    |(get_point_on_circle Real.sin Real.cos (cx, cy) (6 * DEGREE_60) r).1 - cx| ≤ r / 10000 ∧
    |(get_point_on_circle Real.sin Real.cos (cx, cy) (6 * DEGREE_60) r).2 - (cy - r)| ≤
      r / 10000 := by
  have hpi1 : (3.141592 : ℝ) < Real.pi := Real.pi_gt_d6
  have hpi2 : Real.pi < 3.141593 := Real.pi_lt_d6
  have hangle : (6 : ℝ) * DEGREE_60 = (6.2832 - 2 * Real.pi) + 2 * Real.pi := by
    rw [DEGREE_60]; ring
  set t : ℝ := 6.2832 - 2 * Real.pi with ht
  have ht1 : 0 < t := by rw [ht]; linarith
  have ht2 : t < 0.000016 := by rw [ht]; linarith
  have hsin : Real.sin (6 * DEGREE_60) = Real.sin t := by
    rw [hangle, Real.sin_add_two_pi]
  have hcos : Real.cos (6 * DEGREE_60) = Real.cos t := by
    rw [hangle, Real.cos_add_two_pi]
  have hsb : |Real.sin t| ≤ 0.000016 := by
    calc |Real.sin t| ≤ |t| := Real.abs_sin_le_abs
    _ ≤ 0.000016 := by rw [abs_of_pos ht1]; linarith
  have hcb1 : Real.cos t ≤ 1 := Real.cos_le_one t
  have hcb2 : (1 : ℝ) - t ^ 2 / 2 ≤ Real.cos t := Real.one_sub_sq_div_two_le_cos
  have hc : |1 - Real.cos t| ≤ 0.000016 ^ 2 / 2 := by
    rw [abs_le]; constructor <;> nlinarith
  constructor
  · simp only [get_point_on_circle, hsin]
    have : |Real.sin t * r + cx - cx| = |Real.sin t| * r := by
      rw [add_sub_cancel_right, abs_mul, abs_of_nonneg hr]
    rw [this]
    calc |Real.sin t| * r ≤ 0.000016 * r := by
          exact mul_le_mul_of_nonneg_right hsb hr
    _ ≤ r / 10000 := by nlinarith
  · simp only [get_point_on_circle, hcos]
    have : Real.cos t * (-r) + cy - (cy - r) = (1 - Real.cos t) * r := by ring
    rw [this, abs_mul, abs_of_nonneg hr]
    calc |1 - Real.cos t| * r ≤ (0.000016 ^ 2 / 2) * r := by
          exact mul_le_mul_of_nonneg_right hc hr
    _ ≤ r / 10000 := by nlinarith

/-- Witness for C6 at center (0,0) and radius 10. -/
theorem C6_full_ring_closes_witness :
    (0 : ℝ) ≤ 10 ∧
    (|(get_point_on_circle Real.sin Real.cos ((0 : ℝ), (0 : ℝ)) (6 * DEGREE_60) 10).1 - 0| ≤
        10 / 10000 ∧
      |(get_point_on_circle Real.sin Real.cos ((0 : ℝ), (0 : ℝ)) (6 * DEGREE_60) 10).2 -
          (0 - 10)| ≤ 10 / 10000) :=
  ⟨by norm_num, C6_full_ring_closes 0 0 10 (by norm_num)⟩

/-- C2: in the third perimeter pass of `draw_6th_ring` the clamp fires exactly
once (at `k = 10`, `i = 2`, where `i + k = 12 > 11`) and the access then reads
`extra_ring[0]`; every read of the 12-element `extra_ring` array in
`draw_6th_ring` uses an index in 0..11. -/
theorem C2_extra_ring_indices_safe :
    pass3_read_indices 10 = [10, 11, 0] ∧
    draw_6th_ring_read_indices =
      [0, 1, 2, 2, 3, 4, 4, 5, 6, 6, 7, 8, 8, 9, 10, 10, 11, 0] ∧
    draw_6th_ring_read_indices.all (fun i => i < 12) = true := by
  decide

/-- C3: whatever values the random stream delivers (each in 0..255, as
`random.randint(0, 255)` guarantees), all 21 generated components are in 0..255
and the derived frame color is the component-wise integer-truncated arithmetic
mean of the 7 generated ring colors. -/
theorem C3_random_frame_color_is_mean (stream : ℕ → ℕ) (h : ∀ n, stream n ≤ 255) :
    ((random_ring_colors stream).all
      (fun c => c.1 ≤ 255 && c.2.1 ≤ 255 && c.2.2 ≤ 255)) = true ∧
    random_frame_color (random_ring_colors stream) =
      truncated_mean_color (random_ring_colors stream) := by
  constructor
  · simp [random_ring_colors, RING_COLORS_COUNT, List.range_succ, h]
  · simp only [random_ring_colors, RING_COLORS_COUNT, List.range_succ, List.range_zero,
      List.map_append, List.map_cons, List.map_nil, List.nil_append, List.cons_append,
      random_frame_color, truncated_mean_color, List.foldl_cons, List.foldl_nil,
      List.sum_cons, List.sum_nil, List.length_cons, List.length_nil, Prod.mk.injEq]
    refine ⟨?_, ?_, ?_⟩ <;> (congr 1; omega)

/-- Witness for C3 with the constant zero stream. -/
theorem C3_random_frame_color_is_mean_witness :
    ((random_ring_colors zero_stream).all
      (fun c => c.1 ≤ 255 && c.2.1 ≤ 255 && c.2.2 ≤ 255)) = true ∧
    random_frame_color (random_ring_colors zero_stream) =
      truncated_mean_color (random_ring_colors zero_stream) :=
  C3_random_frame_color_is_mean zero_stream (fun _ => Nat.zero_le 255)

/-- C7: the color assignment has exactly `RING_COLORS_COUNT = 7` entries and
`draw_colored_flower` maps the center to `ring_colors[0]` and ring `k`
(`k = 0..5`, in drawing order) to `ring_colors[k + 1]`. -/
theorem C7_color_assignment (c1 c2 c3 c4 c5 c6 c7 : Color) :
    RING_COLORS_COUNT = 7 ∧
    (ring_colors_list c1 c2 c3 c4 c5 c6 c7).length = RING_COLORS_COUNT ∧
    draw_colored_flower (ring_colors_list c1 c2 c3 c4 c5 c6 c7) =
      [FlowerPart.centerCircle c1,
        FlowerPart.ringCircles 0 c2, FlowerPart.ringCircles 1 c3,
        FlowerPart.ringCircles 2 c4, FlowerPart.ringCircles 3 c5,
        FlowerPart.ringCircles 4 c6, FlowerPart.ringCircles 5 c7] :=
  ⟨rfl, rfl, rfl⟩

theorem applied_angles_aux_bounded (s : ℚ) (hs : |s| ≤ 180) :
    ∀ (k : ℕ) (a : ℚ), |a| ≤ 360 → ∀ q ∈ applied_angles_aux s k a, |q| ≤ 180 := by
  intro k
  induction k with
  | zero => intro a _ q hq; simp [applied_angles_aux] at hq
  | succ m ih =>
    intro a ha q hq
    rw [abs_le] at hs ha
    have h1 : |normalize_angle a| ≤ 180 := by
      rw [abs_le]
      unfold normalize_angle
      split_ifs <;> constructor <;> linarith
    simp only [applied_angles_aux, List.mem_cons] at hq
    rcases hq with hq | hq
    · rw [hq]; exact h1
    · refine ih (normalize_angle a + s) ?_ q hq
      rw [abs_le] at h1 ⊢
      constructor <;> linarith

/-- C9: for every frame count from 2 to 60 and both directions, every angle the
animation loop passes to the layer rotation (after the single conditional
adjustment) lies in the closed interval [-180, 180]. -/
theorem C9_rotation_angles_bounded (n : ℕ) (h2 : 2 ≤ n) (h60 : n ≤ 60)
    (d : Bool) : ∀ q ∈ applied_angles n d, -180 ≤ q ∧ q ≤ 180 := by
  intro q hq
  have hn : (0 : ℚ) < (n : ℚ) := by positivity
  have hstep : |(360 : ℚ) / (n : ℚ) * (if d then -1 else 1)| ≤ 180 := by
    have h2q : (2 : ℚ) ≤ (n : ℚ) := by exact_mod_cast h2
    have hb : (360 : ℚ) / (n : ℚ) ≤ 180 := by
      rw [div_le_iff hn]; nlinarith
    have hb0 : (0 : ℚ) ≤ 360 / (n : ℚ) := by positivity
    cases d <;> simp <;> rw [abs_le] <;> constructor <;> linarith
  have := applied_angles_aux_bounded _ hstep (n - 1)
    (360 / (n : ℚ) * (if d then -1 else 1)) (by rw [abs_le] at hstep ⊢; constructor <;> linarith)
    q hq
  rw [abs_le] at this
  exact this

/-- Witness for C9: two frames, clockwise; the single applied angle is 180. -/
theorem C9_rotation_angles_bounded_witness :
    -180 ≤ (180 : ℚ) ∧ (180 : ℚ) ≤ 180 :=
  C9_rotation_angles_bounded 2 (by norm_num) (by norm_num) false 180 (by
    norm_num [applied_angles, applied_angles_aux, normalize_angle])

theorem fract_eq_self_of {q : ℚ} (h0 : 0 ≤ q) (h1 : q < 1) : Int.fract q = q :=
  Int.fract_eq_self.mpr ⟨h0, h1⟩

theorem fract_eq_sub_one_of {q : ℚ} (h0 : 1 ≤ q) (h1 : q < 2) : Int.fract q = q - 1 := by
  have h := Int.fract_sub_int q 1
  rw [← h, Int.fract_eq_self.mpr ⟨by push_cast; linarith, by push_cast; linarith⟩]
  push_cast
  ring

theorem fract_eq_add_one_of {q : ℚ} (h0 : -1 ≤ q) (h1 : q < 0) : Int.fract q = q + 1 := by
  have h := Int.fract_add_int q 1
  rw [← h, Int.fract_eq_self.mpr ⟨by push_cast; linarith, by push_cast; linarith⟩]
  push_cast
  ring

theorem colorsys_v_ramp_up {m1 m2 x : ℚ} (h1 : Int.fract x < 1 / 6) :
    colorsys_v m1 m2 x = m1 + (m2 - m1) * Int.fract x * 6 := by
  simp only [colorsys_v]
  rw [if_pos h1]

theorem colorsys_v_mid {m1 m2 x : ℚ} (h1 : 1 / 6 ≤ Int.fract x) (h2 : Int.fract x < 1 / 2) :
    colorsys_v m1 m2 x = m2 := by
  simp only [colorsys_v]
  rw [if_neg (not_lt.mpr h1), if_pos h2]

theorem colorsys_v_ramp_down {m1 m2 x : ℚ} (h1 : 1 / 2 ≤ Int.fract x)
    (h2 : Int.fract x < 2 / 3) :
    colorsys_v m1 m2 x = m1 + (m2 - m1) * (2 / 3 - Int.fract x) * 6 := by
  simp only [colorsys_v]
  rw [if_neg (not_lt.mpr (le_trans (by norm_num) h1)), if_neg (not_lt.mpr h1), if_pos h2]

theorem colorsys_v_high {m1 m2 x : ℚ} (h1 : 2 / 3 ≤ Int.fract x) :
    colorsys_v m1 m2 x = m1 := by
  simp only [colorsys_v]
  rw [if_neg (not_lt.mpr (le_trans (by norm_num) h1)),
    if_neg (not_lt.mpr (le_trans (by norm_num) h1)), if_neg (not_lt.mpr h1)]

theorem colorsys_v_shift (m1 m2 d x : ℚ) :
    colorsys_v (m1 + d) (m2 + d) x = colorsys_v m1 m2 x + d := by
  simp only [colorsys_v]
  split_ifs <;> ring

theorem hls_to_rgb_eval {h l s m1v m2v : ℚ} (hs : s ≠ 0)
    (hm2 : (if l ≤ 1 / 2 then l * (1 + s) else l + s - l * s) = m2v)
    (hm1 : 2 * l - m2v = m1v) :
    hls_to_rgb h l s =
      (colorsys_v m1v m2v (h + 1 / 3), colorsys_v m1v m2v h, colorsys_v m1v m2v (h - 1 / 3)) := by
  simp only [hls_to_rgb, if_neg hs, hm2, hm1]

theorem s_expr_ne_zero {M m : ℚ} (h0 : 0 ≤ m) (hlt : m < M) (h1 : M ≤ 1) :
    (if (M + m) / 2 ≤ 1 / 2 then (M - m) / (M + m) else (M - m) / (2 - (M + m))) ≠ 0 := by
  have hd : 0 < M - m := by linarith
  by_cases hc : (M + m) / 2 ≤ 1 / 2
  · rw [if_pos hc]
    have hs : 0 < M + m := by linarith
    positivity
  · rw [if_neg hc]
    have hs : 0 < 2 - (M + m) := by linarith
    positivity

theorem m2_plain {M m : ℚ} (h0 : 0 ≤ m) (hlt : m < M) (h1 : M ≤ 1) :
    (if (M + m) / 2 ≤ 1 / 2 then
      (M + m) / 2 *
        (1 + if (M + m) / 2 ≤ 1 / 2 then (M - m) / (M + m) else (M - m) / (2 - (M + m)))
    else
      (M + m) / 2 +
          (if (M + m) / 2 ≤ 1 / 2 then (M - m) / (M + m) else (M - m) / (2 - (M + m))) -
        (M + m) / 2 *
          (if (M + m) / 2 ≤ 1 / 2 then (M - m) / (M + m) else (M - m) / (2 - (M + m)))) = M := by
  by_cases hc : (M + m) / 2 ≤ 1 / 2
  · have hs : (0 : ℚ) < M + m := by linarith
    rw [if_pos hc, if_pos hc]
    field_simp
    ring
  · have hs : (0 : ℚ) < 2 - (M + m) := by linarith
    rw [if_neg hc, if_neg hc]
    field_simp
    ring

theorem m2_light {M m : ℚ} (h0 : 0 ≤ m) (hlt : m < M) (h1 : M ≤ 1) :
    (if 1 - (M + m) / 2 ≤ 1 / 2 then
      (1 - (M + m) / 2) *
        (1 + if (M + m) / 2 ≤ 1 / 2 then (M - m) / (M + m) else (M - m) / (2 - (M + m)))
    else
      1 - (M + m) / 2 +
          (if (M + m) / 2 ≤ 1 / 2 then (M - m) / (M + m) else (M - m) / (2 - (M + m))) -
        (1 - (M + m) / 2) *
          (if (M + m) / 2 ≤ 1 / 2 then (M - m) / (M + m) else (M - m) / (2 - (M + m)))) =
      1 - m := by
  by_cases hc : (M + m) / 2 ≤ 1 / 2
  · have hs : (0 : ℚ) < M + m := by linarith
    by_cases hc2 : 1 - (M + m) / 2 ≤ 1 / 2
    · have hMm : M + m = 1 := by linarith
      rw [if_pos hc2, if_pos hc, hMm]
      field_simp
      linarith [hMm]
    · rw [if_neg hc2, if_pos hc]
      field_simp
      ring
  · have hs : (0 : ℚ) < 2 - (M + m) := by linarith
    have hc2 : 1 - (M + m) / 2 ≤ 1 / 2 := by linarith
    rw [if_pos hc2, if_neg hc]
    field_simp
    ring

theorem v_triple_sector0 {m1 m2 x : ℚ} (h0 : 0 ≤ x) (h1 : x ≤ 1 / 6) :
    colorsys_v m1 m2 (x + 1 / 3) = m2 ∧
    colorsys_v m1 m2 x = m1 + (m2 - m1) * x * 6 ∧
    colorsys_v m1 m2 (x - 1 / 3) = m1 := by
  have f1 : Int.fract (x + 1 / 3) = x + 1 / 3 := fract_eq_self_of (by linarith) (by linarith)
  have f2 : Int.fract x = x := fract_eq_self_of h0 (by linarith)
  have f3 : Int.fract (x - 1 / 3) = x + 2 / 3 := by
    rw [fract_eq_add_one_of (by linarith) (by linarith)]
    ring
  refine ⟨?_, ?_, ?_⟩
  · rcases lt_or_le (x + 1 / 3) (1 / 2) with hc | hc
    · rw [colorsys_v_mid (by rw [f1]; linarith) (by rw [f1]; exact hc)]
    · rw [colorsys_v_ramp_down (by rw [f1]; linarith) (by rw [f1]; linarith), f1]
      have hx : x = 1 / 6 := by linarith
      rw [hx]
      ring
  · rcases lt_or_le x (1 / 6) with hc | hc
    · rw [colorsys_v_ramp_up (by rw [f2]; exact hc), f2]
    · have hx : x = 1 / 6 := by linarith
      rw [colorsys_v_mid (by rw [f2]; linarith) (by rw [f2]; linarith), hx]
      ring
  · rw [colorsys_v_high (by rw [f3]; linarith)]

theorem v_triple_sector1 {m1 m2 x : ℚ} (h0 : 1 / 6 ≤ x) (h1 : x ≤ 1 / 3) :
    colorsys_v m1 m2 (x + 1 / 3) = m1 + (m2 - m1) * (1 / 3 - x) * 6 ∧
    colorsys_v m1 m2 x = m2 ∧
    colorsys_v m1 m2 (x - 1 / 3) = m1 := by
  have f1 : Int.fract (x + 1 / 3) = x + 1 / 3 := fract_eq_self_of (by linarith) (by linarith)
  have f2 : Int.fract x = x := fract_eq_self_of (by linarith) (by linarith)
  refine ⟨?_, ?_, ?_⟩
  · rcases lt_or_le (x + 1 / 3) (2 / 3) with hc | hc
    · rw [colorsys_v_ramp_down (by rw [f1]; linarith) (by rw [f1]; exact hc), f1]
      ring
    · have hx : x = 1 / 3 := by linarith
      rw [colorsys_v_high (by rw [f1]; linarith), hx]
      ring
  · rw [colorsys_v_mid (by rw [f2]; linarith) (by rw [f2]; linarith)]
  · rcases lt_or_le x (1 / 3) with hc | hc
    · have f3 : Int.fract (x - 1 / 3) = x + 2 / 3 := by
        rw [fract_eq_add_one_of (by linarith) (by linarith)]
        ring
      rw [colorsys_v_high (by rw [f3]; linarith)]
    · have hx : x = 1 / 3 := by linarith
      have f3 : Int.fract (x - 1 / 3) = 0 := by rw [hx]; norm_num
      rw [colorsys_v_ramp_up (by rw [f3]; norm_num), f3]
      ring

theorem v_triple_sector2 {m1 m2 x : ℚ} (h0 : 1 / 3 ≤ x) (h1 : x ≤ 1 / 2) :
    colorsys_v m1 m2 (x + 1 / 3) = m1 ∧
    colorsys_v m1 m2 x = m2 ∧
    colorsys_v m1 m2 (x - 1 / 3) = m1 + (m2 - m1) * (x - 1 / 3) * 6 := by
  have f1 : Int.fract (x + 1 / 3) = x + 1 / 3 := fract_eq_self_of (by linarith) (by linarith)
  have f2 : Int.fract x = x := fract_eq_self_of (by linarith) (by linarith)
  have f3 : Int.fract (x - 1 / 3) = x - 1 / 3 := fract_eq_self_of (by linarith) (by linarith)
  refine ⟨?_, ?_, ?_⟩
  · rw [colorsys_v_high (by rw [f1]; linarith)]
  · rcases lt_or_le x (1 / 2) with hc | hc
    · rw [colorsys_v_mid (by rw [f2]; linarith) (by rw [f2]; exact hc)]
    · have hx : x = 1 / 2 := by linarith
      rw [colorsys_v_ramp_down (by rw [f2]; linarith) (by rw [f2]; linarith), f2, hx]
      ring
  · rcases lt_or_le (x - 1 / 3) (1 / 6) with hc | hc
    · rw [colorsys_v_ramp_up (by rw [f3]; exact hc), f3]
    · have hx : x = 1 / 2 := by linarith
      rw [colorsys_v_mid (by rw [f3]; linarith) (by rw [f3]; rw [hx]; norm_num), hx]
      ring

theorem v_triple_sector3 {m1 m2 x : ℚ} (h0 : 1 / 2 ≤ x) (h1 : x ≤ 2 / 3) :
    colorsys_v m1 m2 (x + 1 / 3) = m1 ∧
    colorsys_v m1 m2 x = m1 + (m2 - m1) * (2 / 3 - x) * 6 ∧
    colorsys_v m1 m2 (x - 1 / 3) = m2 := by
  have f2 : Int.fract x = x := fract_eq_self_of (by linarith) (by linarith)
  have f3 : Int.fract (x - 1 / 3) = x - 1 / 3 := fract_eq_self_of (by linarith) (by linarith)
  refine ⟨?_, ?_, ?_⟩
  · rcases lt_or_le (x + 1 / 3) 1 with hc | hc
    · have f1 : Int.fract (x + 1 / 3) = x + 1 / 3 := fract_eq_self_of (by linarith) hc
      rw [colorsys_v_high (by rw [f1]; linarith)]
    · have hx : x = 2 / 3 := by linarith
      have f1 : Int.fract (x + 1 / 3) = 0 := by rw [hx]; norm_num
      rw [colorsys_v_ramp_up (by rw [f1]; norm_num), f1]
      ring
  · rcases lt_or_le x (2 / 3) with hc | hc
    · rw [colorsys_v_ramp_down (by rw [f2]; linarith) (by rw [f2]; exact hc), f2]
    · have hx : x = 2 / 3 := by linarith
      rw [colorsys_v_high (by rw [f2]; linarith), hx]
      ring
  · rw [colorsys_v_mid (by rw [f3]; linarith) (by rw [f3]; linarith)]

theorem v_triple_sector4 {m1 m2 x : ℚ} (h0 : 2 / 3 ≤ x) (h1 : x ≤ 5 / 6) :
    colorsys_v m1 m2 (x + 1 / 3) = m1 + (m2 - m1) * (x - 2 / 3) * 6 ∧
    colorsys_v m1 m2 x = m1 ∧
    colorsys_v m1 m2 (x - 1 / 3) = m2 := by
  have f1 : Int.fract (x + 1 / 3) = x - 2 / 3 := by
    rw [fract_eq_sub_one_of (by linarith) (by linarith)]
    ring
  have f2 : Int.fract x = x := fract_eq_self_of (by linarith) (by linarith)
  have f3 : Int.fract (x - 1 / 3) = x - 1 / 3 := fract_eq_self_of (by linarith) (by linarith)
  refine ⟨?_, ?_, ?_⟩
  · rcases lt_or_le (x - 2 / 3) (1 / 6) with hc | hc
    · rw [colorsys_v_ramp_up (by rw [f1]; exact hc), f1]
    · have hx : x = 5 / 6 := by linarith
      rw [colorsys_v_mid (by rw [f1]; linarith) (by rw [f1]; rw [hx]; norm_num), hx]
      ring
  · rw [colorsys_v_high (by rw [f2]; linarith)]
  · rcases lt_or_le (x - 1 / 3) (1 / 2) with hc | hc
    · rw [colorsys_v_mid (by rw [f3]; linarith) (by rw [f3]; exact hc)]
    · have hx : x = 5 / 6 := by linarith
      rw [colorsys_v_ramp_down (by rw [f3]; linarith) (by rw [f3]; rw [hx]; norm_num), f3, hx]
      ring

theorem v_triple_sector5 {m1 m2 x : ℚ} (h0 : 5 / 6 ≤ x) (h1 : x ≤ 1) :
    colorsys_v m1 m2 (x + 1 / 3) = m2 ∧
    colorsys_v m1 m2 x = m1 ∧
    colorsys_v m1 m2 (x - 1 / 3) = m1 + (m2 - m1) * (1 - x) * 6 := by
  have f1 : Int.fract (x + 1 / 3) = x - 2 / 3 := by
    rw [fract_eq_sub_one_of (by linarith) (by linarith)]
    ring
  have f3 : Int.fract (x - 1 / 3) = x - 1 / 3 := fract_eq_self_of (by linarith) (by linarith)
  refine ⟨?_, ?_, ?_⟩
  · rw [colorsys_v_mid (by rw [f1]; linarith) (by rw [f1]; linarith)]
  · rcases lt_or_le x 1 with hc | hc
    · have f2 : Int.fract x = x := fract_eq_self_of (by linarith) hc
      rw [colorsys_v_high (by rw [f2]; linarith)]
    · have hx : x = 1 := by linarith
      have f2 : Int.fract x = 0 := by rw [hx]; norm_num
      rw [colorsys_v_ramp_up (by rw [f2]; norm_num), f2]
      ring
  · rcases lt_or_le (x - 1 / 3) (2 / 3) with hc | hc
    · rw [colorsys_v_ramp_down (by rw [f3]; linarith) (by rw [f3]; exact hc), f3]
      ring
    · have hx : x = 1 := by linarith
      rw [colorsys_v_high (by rw [f3]; linarith), hx]
      ring

theorem rgb_to_hls_rmax_bg {r g b : ℚ} (hgr : g ≤ r) (hbr : b ≤ r) (hbg : b ≤ g)
    (hlt : b < r) :
    rgb_to_hls r g b =
      ((g - b) / (r - b) / 6, (r + b) / 2,
        if (r + b) / 2 ≤ 1 / 2 then (r - b) / (r + b) else (r - b) / (2 - (r + b))) := by
  have hmax : max r (max g b) = r := max_eq_left (max_le hgr hbr)
  have hmin : min r (min g b) = b := by
    rw [min_eq_right hbg]
    exact min_eq_right hbr
  have hne : ¬ (b = r) := ne_of_lt hlt
  have hd : r - b ≠ 0 := sub_ne_zero.mpr (ne_of_gt hlt)
  simp only [rgb_to_hls, hmax, hmin, if_neg hne, eq_self_iff_true, if_true]
  have harg : ((r - b) / (r - b) - (r - g) / (r - b)) / 6 = (g - b) / (r - b) / 6 := by
    field_simp
  rw [harg, fract_eq_self_of]
  · exact div_nonneg (div_nonneg (by linarith) (by linarith)) (by norm_num)
  · have hb : (g - b) / (r - b) ≤ 1 := (div_le_one (by linarith)).mpr (by linarith)
    linarith

theorem rgb_to_hls_rmax_gb {r g b : ℚ} (hgr : g ≤ r) (hbr : b ≤ r) (hgb : g < b) :
    rgb_to_hls r g b =
      ((g - b) / (r - g) / 6 + 1, (r + g) / 2,
        if (r + g) / 2 ≤ 1 / 2 then (r - g) / (r + g) else (r - g) / (2 - (r + g))) := by
  have hlt : g < r := lt_of_lt_of_le hgb hbr
  have hmax : max r (max g b) = r := max_eq_left (max_le hgr hbr)
  have hmin : min r (min g b) = g := by
    rw [min_eq_left (le_of_lt hgb)]
    exact min_eq_right hgr
  have hne : ¬ (g = r) := ne_of_lt hlt
  have hd : r - g ≠ 0 := sub_ne_zero.mpr (ne_of_gt hlt)
  simp only [rgb_to_hls, hmax, hmin, if_neg hne, eq_self_iff_true, if_true]
  have harg : ((r - b) / (r - g) - (r - g) / (r - g)) / 6 = (g - b) / (r - g) / 6 := by
    field_simp
    try ring
  rw [harg, fract_eq_add_one_of]
  · have hb : (b - g) / (r - g) ≤ 1 := (div_le_one (by linarith)).mpr (by linarith)
    have : (g - b) / (r - g) = -((b - g) / (r - g)) := by ring
    rw [this]
    linarith
  · have hb : 0 < (b - g) / (r - g) := div_pos (by linarith) (by linarith)
    have : (g - b) / (r - g) = -((b - g) / (r - g)) := by ring
    rw [this]
    linarith

theorem rgb_to_hls_gmax_rb {r g b : ℚ} (hrg : r < g) (hbg : b ≤ g) (hrb : r ≤ b) :
    rgb_to_hls r g b =
      (((b - r) / (g - r) + 2) / 6, (g + r) / 2,
        if (g + r) / 2 ≤ 1 / 2 then (g - r) / (g + r) else (g - r) / (2 - (g + r))) := by
  have hmax : max r (max g b) = g := by
    rw [max_eq_left hbg]
    exact max_eq_right (le_of_lt hrg)
  have hmin : min r (min g b) = r := by
    rw [min_eq_right hbg]
    exact min_eq_left hrb
  have hne : ¬ (r = g) := ne_of_lt hrg
  have hd : g - r ≠ 0 := sub_ne_zero.mpr (ne_of_gt hrg)
  simp only [rgb_to_hls, hmax, hmin, if_neg hne, eq_self_iff_true, if_true]
  have harg : (2 + (g - r) / (g - r) - (g - b) / (g - r)) / 6 = ((b - r) / (g - r) + 2) / 6 := by
    field_simp
    try ring
  rw [harg, fract_eq_self_of]
  · have hb : 0 ≤ (b - r) / (g - r) := div_nonneg (by linarith) (by linarith)
    linarith
  · have hb : (b - r) / (g - r) ≤ 1 := (div_le_one (by linarith)).mpr (by linarith)
    linarith

theorem rgb_to_hls_gmax_br {r g b : ℚ} (hrg : r < g) (hbg : b ≤ g) (hbr : b < r) :
    rgb_to_hls r g b =
      (((g - r) / (g - b) + 1) / 6, (g + b) / 2,
        if (g + b) / 2 ≤ 1 / 2 then (g - b) / (g + b) else (g - b) / (2 - (g + b))) := by
  have hmax : max r (max g b) = g := by
    rw [max_eq_left hbg]
    exact max_eq_right (le_of_lt hrg)
  have hmin : min r (min g b) = b := by
    rw [min_eq_right hbg]
    exact min_eq_right (le_of_lt hbr)
  have hne : ¬ (b = g) := ne_of_lt (lt_trans hbr hrg)
  have hd : g - b ≠ 0 := sub_ne_zero.mpr (ne_of_gt (lt_trans hbr hrg))
  simp only [rgb_to_hls, hmax, hmin, if_neg hne, eq_self_iff_true, if_true]
  have hne2 : ¬ (r = g) := ne_of_lt hrg
  rw [if_neg hne2]
  have harg : (2 + (g - r) / (g - b) - (g - b) / (g - b)) / 6 = ((g - r) / (g - b) + 1) / 6 := by
    field_simp
    try ring
  rw [harg, fract_eq_self_of]
  · have hb : 0 ≤ (g - r) / (g - b) := div_nonneg (by linarith) (by linarith)
    linarith
  · have hb : (g - r) / (g - b) ≤ 1 := (div_le_one (by linarith)).mpr (by linarith)
    linarith

theorem rgb_to_hls_bmax_gr {r g b : ℚ} (hgr : g ≤ r) (hrb : r < b) :
    rgb_to_hls r g b =
      (((r - g) / (b - g) + 4) / 6, (b + g) / 2,
        if (b + g) / 2 ≤ 1 / 2 then (b - g) / (b + g) else (b - g) / (2 - (b + g))) := by
  have hgb : g < b := lt_of_le_of_lt hgr hrb
  have hmax : max r (max g b) = b := by
    rw [max_eq_right (le_of_lt hgb)]
    exact max_eq_right (le_of_lt hrb)
  have hmin : min r (min g b) = g := by
    rw [min_eq_left (le_of_lt hgb)]
    exact min_eq_right hgr
  have hne : ¬ (g = b) := ne_of_lt hgb
  have hd : b - g ≠ 0 := sub_ne_zero.mpr (ne_of_gt hgb)
  simp only [rgb_to_hls, hmax, hmin, if_neg hne, eq_self_iff_true, if_true]
  have hne2 : ¬ (r = b) := ne_of_lt hrb
  rw [if_neg hne2]
  have harg : (4 + (b - g) / (b - g) - (b - r) / (b - g)) / 6 = ((r - g) / (b - g) + 4) / 6 := by
    field_simp
    try ring
  rw [harg, fract_eq_self_of]
  · have hb : 0 ≤ (r - g) / (b - g) := div_nonneg (by linarith) (by linarith)
    linarith
  · have hb : (r - g) / (b - g) ≤ 1 := (div_le_one (by linarith)).mpr (by linarith)
    linarith

theorem rgb_to_hls_bmax_rg {r g b : ℚ} (hrg : r < g) (hgb : g < b) :
    rgb_to_hls r g b =
      (((b - g) / (b - r) + 3) / 6, (b + r) / 2,
        if (b + r) / 2 ≤ 1 / 2 then (b - r) / (b + r) else (b - r) / (2 - (b + r))) := by
  have hrb : r < b := lt_trans hrg hgb
  have hmax : max r (max g b) = b := by
    rw [max_eq_right (le_of_lt hgb)]
    exact max_eq_right (le_of_lt hrb)
  have hmin : min r (min g b) = r := by
    rw [min_eq_left (le_of_lt hgb)]
    exact min_eq_left (le_of_lt hrg)
  have hne : ¬ (r = b) := ne_of_lt hrb
  have hd : b - r ≠ 0 := sub_ne_zero.mpr (ne_of_gt hrb)
  simp only [rgb_to_hls, hmax, hmin, if_neg hne, eq_self_iff_true, if_true]
  have hne3 : ¬ (g = b) := ne_of_lt hgb
  rw [if_neg hne3]
  have harg : (4 + (b - g) / (b - r) - (b - r) / (b - r)) / 6 = ((b - g) / (b - r) + 3) / 6 := by
    field_simp
    try ring
  rw [harg, fract_eq_self_of]
  · have hb : 0 ≤ (b - g) / (b - r) := div_nonneg (by linarith) (by linarith)
    linarith
  · have hb : (b - g) / (b - r) ≤ 1 := (div_le_one (by linarith)).mpr (by linarith)
    linarith

theorem gray_all_eq {r g b : ℚ} (hgray : min r (min g b) = max r (max g b)) :
    g = r ∧ b = r := by
  have h1 : min r (min g b) ≤ r := min_le_left _ _
  have h2 : min r (min g b) ≤ g := le_trans (min_le_right _ _) (min_le_left _ _)
  have h3 : min r (min g b) ≤ b := le_trans (min_le_right _ _) (min_le_right _ _)
  have h4 : r ≤ max r (max g b) := le_max_left _ _
  have h5 : g ≤ max r (max g b) := le_trans (le_max_left _ _) (le_max_right _ _)
  have h6 : b ≤ max r (max g b) := le_trans (le_max_right _ _) (le_max_right _ _)
  constructor <;> linarith

theorem hls_hue_swap {r g b : ℚ} (hr0 : 0 ≤ r) (hg0 : 0 ≤ g) (hb0 : 0 ≤ b)
    (hr1 : r ≤ 1) (hg1 : g ≤ 1) (hb1 : b ≤ 1) :
    hls_to_rgb (1 - (rgb_to_hls r g b).1) (rgb_to_hls r g b).2.1 (rgb_to_hls r g b).2.2 =
      (r, b, g) := by
  by_cases hgray : min r (min g b) = max r (max g b)
  · obtain ⟨hg, hb⟩ := gray_all_eq hgray
    rw [hg, hb]
    have h1 : rgb_to_hls r r r = (0, (r + r) / 2, 0) := by simp [rgb_to_hls]
    rw [h1]
    show hls_to_rgb (1 - 0) ((r + r) / 2) 0 = (r, r, r)
    simp only [hls_to_rgb, eq_self_iff_true, if_true]
    have hrr : (r + r) / 2 = r := by ring
    rw [hrr]
  · rcases le_or_lt g r with hgr | hrg
    · rcases le_or_lt b r with hbr | hrb
      · rcases le_or_lt b g with hbg | hgb
        · -- r is max, b is min
          have hlt : b < r := by
            rcases lt_or_eq_of_le (le_trans hbg hgr) with h | h
            · exact h
            · exfalso
              apply hgray
              rw [show g = r by linarith, ← h]
              simp
          have hdq : (0 : ℚ) < r - b := by linarith
          have hq0 : 0 ≤ (g - b) / (r - b) := div_nonneg (by linarith) (by linarith)
          have hq1 : (g - b) / (r - b) ≤ 1 := (div_le_one hdq).mpr (by linarith)
          simp only [rgb_to_hls_rmax_bg hgr hbr hbg hlt]
          rw [hls_to_rgb_eval (s_expr_ne_zero hb0 hlt hr1) (m2_plain hb0 hlt hr1)
            (show 2 * ((r + b) / 2) - r = b by ring)]
          obtain ⟨e1, e2, e3⟩ := @v_triple_sector5 b r (1 - (g - b) / (r - b) / 6)
            (by linarith) (by linarith)
          rw [e1, e2, e3]
          simp only [Prod.mk.injEq, true_and, and_true]
          field_simp
          ring
        · -- r is max, g is min
          have hlt : g < r := lt_of_lt_of_le hgb hbr
          have hdq : (0 : ℚ) < r - g := by linarith
          have hq0 : 0 < (b - g) / (r - g) := div_pos (by linarith) hdq
          have hq1 : (b - g) / (r - g) ≤ 1 := (div_le_one hdq).mpr (by linarith)
          have hrw : (g - b) / (r - g) = -((b - g) / (r - g)) := by ring
          simp only [rgb_to_hls_rmax_gb hgr hbr hgb]
          rw [hls_to_rgb_eval (s_expr_ne_zero hg0 hlt hr1) (m2_plain hg0 hlt hr1)
            (show 2 * ((r + g) / 2) - r = g by ring)]
          obtain ⟨e1, e2, e3⟩ := @v_triple_sector0 g r (1 - ((g - b) / (r - g) / 6 + 1))
            (by rw [hrw]; linarith) (by rw [hrw]; linarith)
          rw [e1, e2, e3]
          simp only [Prod.mk.injEq, true_and, and_true]
          field_simp
          ring
      · -- b is max, g is min (g ≤ r < b)
        have hgb : g < b := lt_of_le_of_lt hgr hrb
        have hdq : (0 : ℚ) < b - g := by linarith
        have hq0 : 0 ≤ (r - g) / (b - g) := div_nonneg (by linarith) (by linarith)
        have hq1 : (r - g) / (b - g) ≤ 1 := (div_le_one hdq).mpr (by linarith)
        simp only [rgb_to_hls_bmax_gr hgr hrb]
        rw [hls_to_rgb_eval (s_expr_ne_zero hg0 hgb hb1) (m2_plain hg0 hgb hb1)
          (show 2 * ((b + g) / 2) - b = g by ring)]
        obtain ⟨e1, e2, e3⟩ := @v_triple_sector1 g b (1 - ((r - g) / (b - g) + 4) / 6)
          (by linarith) (by linarith)
        rw [e1, e2, e3]
        simp only [Prod.mk.injEq, true_and, and_true]
        field_simp
        ring
    · rcases le_or_lt b g with hbg | hgb
      · rcases le_or_lt r b with hrb | hbr
        · -- g is max, r is min
          have hdq : (0 : ℚ) < g - r := by linarith
          have hq0 : 0 ≤ (b - r) / (g - r) := div_nonneg (by linarith) (by linarith)
          have hq1 : (b - r) / (g - r) ≤ 1 := (div_le_one hdq).mpr (by linarith)
          simp only [rgb_to_hls_gmax_rb hrg hbg hrb]
          rw [hls_to_rgb_eval (s_expr_ne_zero hr0 hrg hg1) (m2_plain hr0 hrg hg1)
            (show 2 * ((g + r) / 2) - g = r by ring)]
          obtain ⟨e1, e2, e3⟩ := @v_triple_sector3 r g (1 - ((b - r) / (g - r) + 2) / 6)
            (by linarith) (by linarith)
          rw [e1, e2, e3]
          simp only [Prod.mk.injEq, true_and, and_true]
          field_simp
          ring
        · -- g is max, b is min
          have hbg2 : b < g := lt_trans hbr hrg
          have hdq : (0 : ℚ) < g - b := by linarith
          have hq0 : 0 ≤ (g - r) / (g - b) := div_nonneg (by linarith) (by linarith)
          have hq1 : (g - r) / (g - b) ≤ 1 := (div_le_one hdq).mpr (by linarith)
          simp only [rgb_to_hls_gmax_br hrg hbg hbr]
          rw [hls_to_rgb_eval (s_expr_ne_zero hb0 hbg2 hg1) (m2_plain hb0 hbg2 hg1)
            (show 2 * ((g + b) / 2) - g = b by ring)]
          obtain ⟨e1, e2, e3⟩ := @v_triple_sector4 b g (1 - ((g - r) / (g - b) + 1) / 6)
            (by linarith) (by linarith)
          rw [e1, e2, e3]
          simp only [Prod.mk.injEq, true_and, and_true]
          field_simp
          ring
      · -- b is max, r is min (r < g < b)
        have hrb : r < b := lt_trans hrg hgb
        have hdq : (0 : ℚ) < b - r := by linarith
        have hq0 : 0 ≤ (b - g) / (b - r) := div_nonneg (by linarith) (by linarith)
        have hq1 : (b - g) / (b - r) ≤ 1 := (div_le_one hdq).mpr (by linarith)
        simp only [rgb_to_hls_bmax_rg hrg hgb]
        rw [hls_to_rgb_eval (s_expr_ne_zero hr0 hrb hb1) (m2_plain hr0 hrb hb1)
          (show 2 * ((b + r) / 2) - b = r by ring)]
        obtain ⟨e1, e2, e3⟩ := @v_triple_sector2 r b (1 - ((b - g) / (b - r) + 3) / 6)
          (by linarith) (by linarith)
        rw [e1, e2, e3]
        simp only [Prod.mk.injEq, true_and, and_true]
        field_simp
        ring

theorem hls_light_shift {r g b : ℚ} (hr0 : 0 ≤ r) (hg0 : 0 ≤ g) (hb0 : 0 ≤ b)
    (hr1 : r ≤ 1) (hg1 : g ≤ 1) (hb1 : b ≤ 1) :
    hls_to_rgb (rgb_to_hls r g b).1 (1 - (rgb_to_hls r g b).2.1) (rgb_to_hls r g b).2.2 =
      (r + (1 - max r (max g b) - min r (min g b)),
        g + (1 - max r (max g b) - min r (min g b)),
        b + (1 - max r (max g b) - min r (min g b))) := by
  by_cases hgray : min r (min g b) = max r (max g b)
  · obtain ⟨hg, hb⟩ := gray_all_eq hgray
    rw [hg, hb]
    have h1 : rgb_to_hls r r r = (0, (r + r) / 2, 0) := by simp [rgb_to_hls]
    rw [h1]
    simp only [hls_to_rgb, eq_self_iff_true, if_true, max_self, min_self]
    have e : (1 : ℚ) - (r + r) / 2 = r + (1 - r - r) := by ring
    rw [e]
  · rcases le_or_lt g r with hgr | hrg
    · rcases le_or_lt b r with hbr | hrb
      · rcases le_or_lt b g with hbg | hgb
        · -- r is max, b is min
          have hlt : b < r := by
            rcases lt_or_eq_of_le (le_trans hbg hgr) with h | h
            · exact h
            · exfalso
              apply hgray
              rw [show g = r by linarith, ← h]
              simp
          have hmax : max r (max g b) = r := max_eq_left (max_le hgr hbr)
          have hmin : min r (min g b) = b := by
            rw [min_eq_right hbg]
            exact min_eq_right hbr
          have hdq : (0 : ℚ) < r - b := by linarith
          have hq0 : 0 ≤ (g - b) / (r - b) := div_nonneg (by linarith) (by linarith)
          have hq1 : (g - b) / (r - b) ≤ 1 := (div_le_one hdq).mpr (by linarith)
          rw [hmax, hmin]
          simp only [rgb_to_hls_rmax_bg hgr hbr hbg hlt]
          rw [hls_to_rgb_eval (s_expr_ne_zero hb0 hlt hr1) (m2_light hb0 hlt hr1)
            (show 2 * (1 - (r + b) / 2) - (1 - b) = 1 - r by ring)]
          set d : ℚ := 1 - r - b with hd
          have c1 : (1 : ℚ) - r = b + d := by rw [hd]; ring
          have c2 : (1 : ℚ) - b = r + d := by rw [hd]; ring
          rw [c1, c2, colorsys_v_shift, colorsys_v_shift, colorsys_v_shift]
          obtain ⟨e1, e2, e3⟩ := @v_triple_sector0 b r ((g - b) / (r - b) / 6)
            (by linarith) (by linarith)
          rw [e1, e2, e3]
          simp only [Prod.mk.injEq, true_and, and_true]
          field_simp
          ring
        · -- r is max, g is min
          have hlt : g < r := lt_of_lt_of_le hgb hbr
          have hmax : max r (max g b) = r := max_eq_left (max_le hgr hbr)
          have hmin : min r (min g b) = g := by
            rw [min_eq_left (le_of_lt hgb)]
            exact min_eq_right hgr
          have hdq : (0 : ℚ) < r - g := by linarith
          have hq0 : 0 < (b - g) / (r - g) := div_pos (by linarith) hdq
          have hq1 : (b - g) / (r - g) ≤ 1 := (div_le_one hdq).mpr (by linarith)
          have hrw : (g - b) / (r - g) = -((b - g) / (r - g)) := by ring
          rw [hmax, hmin]
          simp only [rgb_to_hls_rmax_gb hgr hbr hgb]
          rw [hls_to_rgb_eval (s_expr_ne_zero hg0 hlt hr1) (m2_light hg0 hlt hr1)
            (show 2 * (1 - (r + g) / 2) - (1 - g) = 1 - r by ring)]
          set d : ℚ := 1 - r - g with hd
          have c1 : (1 : ℚ) - r = g + d := by rw [hd]; ring
          have c2 : (1 : ℚ) - g = r + d := by rw [hd]; ring
          rw [c1, c2, colorsys_v_shift, colorsys_v_shift, colorsys_v_shift]
          obtain ⟨e1, e2, e3⟩ := @v_triple_sector5 g r ((g - b) / (r - g) / 6 + 1)
            (by rw [hrw]; linarith) (by rw [hrw]; linarith)
          rw [e1, e2, e3]
          simp only [Prod.mk.injEq, true_and, and_true]
          field_simp
          ring
      · -- b is max, g is min (g ≤ r < b)
        have hgb : g < b := lt_of_le_of_lt hgr hrb
        have hmax : max r (max g b) = b := by
          rw [max_eq_right (le_of_lt hgb)]
          exact max_eq_right (le_of_lt hrb)
        have hmin : min r (min g b) = g := by
          rw [min_eq_left (le_of_lt hgb)]
          exact min_eq_right hgr
        have hdq : (0 : ℚ) < b - g := by linarith
        have hq0 : 0 ≤ (r - g) / (b - g) := div_nonneg (by linarith) (by linarith)
        have hq1 : (r - g) / (b - g) ≤ 1 := (div_le_one hdq).mpr (by linarith)
        rw [hmax, hmin]
        simp only [rgb_to_hls_bmax_gr hgr hrb]
        rw [hls_to_rgb_eval (s_expr_ne_zero hg0 hgb hb1) (m2_light hg0 hgb hb1)
          (show 2 * (1 - (b + g) / 2) - (1 - g) = 1 - b by ring)]
        set d : ℚ := 1 - b - g with hd
        have c1 : (1 : ℚ) - b = g + d := by rw [hd]; ring
        have c2 : (1 : ℚ) - g = b + d := by rw [hd]; ring
        rw [c1, c2, colorsys_v_shift, colorsys_v_shift, colorsys_v_shift]
        obtain ⟨e1, e2, e3⟩ := @v_triple_sector4 g b (((r - g) / (b - g) + 4) / 6)
          (by linarith) (by linarith)
        rw [e1, e2, e3]
        simp only [Prod.mk.injEq, true_and, and_true]
        field_simp
        ring
    · rcases le_or_lt b g with hbg | hgb
      · rcases le_or_lt r b with hrb | hbr
        · -- g is max, r is min
          have hmax : max r (max g b) = g := by
            rw [max_eq_left hbg]
            exact max_eq_right (le_of_lt hrg)
          have hmin : min r (min g b) = r := by
            rw [min_eq_right hbg]
            exact min_eq_left hrb
          have hdq : (0 : ℚ) < g - r := by linarith
          have hq0 : 0 ≤ (b - r) / (g - r) := div_nonneg (by linarith) (by linarith)
          have hq1 : (b - r) / (g - r) ≤ 1 := (div_le_one hdq).mpr (by linarith)
          rw [hmax, hmin]
          simp only [rgb_to_hls_gmax_rb hrg hbg hrb]
          rw [hls_to_rgb_eval (s_expr_ne_zero hr0 hrg hg1) (m2_light hr0 hrg hg1)
            (show 2 * (1 - (g + r) / 2) - (1 - r) = 1 - g by ring)]
          set d : ℚ := 1 - g - r with hd
          have c1 : (1 : ℚ) - g = r + d := by rw [hd]; ring
          have c2 : (1 : ℚ) - r = g + d := by rw [hd]; ring
          rw [c1, c2, colorsys_v_shift, colorsys_v_shift, colorsys_v_shift]
          obtain ⟨e1, e2, e3⟩ := @v_triple_sector2 r g (((b - r) / (g - r) + 2) / 6)
            (by linarith) (by linarith)
          rw [e1, e2, e3]
          simp only [Prod.mk.injEq, true_and, and_true]
          field_simp
          ring
        · -- g is max, b is min
          have hbg2 : b < g := lt_trans hbr hrg
          have hmax : max r (max g b) = g := by
            rw [max_eq_left hbg]
            exact max_eq_right (le_of_lt hrg)
          have hmin : min r (min g b) = b := by
            rw [min_eq_right hbg]
            exact min_eq_right (le_of_lt hbr)
          have hdq : (0 : ℚ) < g - b := by linarith
          have hq0 : 0 ≤ (g - r) / (g - b) := div_nonneg (by linarith) (by linarith)
          have hq1 : (g - r) / (g - b) ≤ 1 := (div_le_one hdq).mpr (by linarith)
          rw [hmax, hmin]
          simp only [rgb_to_hls_gmax_br hrg hbg hbr]
          rw [hls_to_rgb_eval (s_expr_ne_zero hb0 hbg2 hg1) (m2_light hb0 hbg2 hg1)
            (show 2 * (1 - (g + b) / 2) - (1 - b) = 1 - g by ring)]
          set d : ℚ := 1 - g - b with hd
          have c1 : (1 : ℚ) - g = b + d := by rw [hd]; ring
          have c2 : (1 : ℚ) - b = g + d := by rw [hd]; ring
          rw [c1, c2, colorsys_v_shift, colorsys_v_shift, colorsys_v_shift]
          obtain ⟨e1, e2, e3⟩ := @v_triple_sector1 b g (((g - r) / (g - b) + 1) / 6)
            (by linarith) (by linarith)
          rw [e1, e2, e3]
          simp only [Prod.mk.injEq, true_and, and_true]
          field_simp
          ring
      · -- b is max, r is min (r < g < b)
        have hrb : r < b := lt_trans hrg hgb
        have hmax : max r (max g b) = b := by
          rw [max_eq_right (le_of_lt hgb)]
          exact max_eq_right (le_of_lt hrb)
        have hmin : min r (min g b) = r := by
          rw [min_eq_left (le_of_lt hgb)]
          exact min_eq_left (le_of_lt hrg)
        have hdq : (0 : ℚ) < b - r := by linarith
        have hq0 : 0 ≤ (b - g) / (b - r) := div_nonneg (by linarith) (by linarith)
        have hq1 : (b - g) / (b - r) ≤ 1 := (div_le_one hdq).mpr (by linarith)
        rw [hmax, hmin]
        simp only [rgb_to_hls_bmax_rg hrg hgb]
        rw [hls_to_rgb_eval (s_expr_ne_zero hr0 hrb hb1) (m2_light hr0 hrb hb1)
          (show 2 * (1 - (b + r) / 2) - (1 - r) = 1 - b by ring)]
        set d : ℚ := 1 - b - r with hd
        have c1 : (1 : ℚ) - b = r + d := by rw [hd]; ring
        have c2 : (1 : ℚ) - r = b + d := by rw [hd]; ring
        rw [c1, c2, colorsys_v_shift, colorsys_v_shift, colorsys_v_shift]
        obtain ⟨e1, e2, e3⟩ := @v_triple_sector3 r b (((b - g) / (b - r) + 3) / 6)
          (by linarith) (by linarith)
        rw [e1, e2, e3]
        simp only [Prod.mk.injEq, true_and, and_true]
        field_simp
        ring

theorem to_unit_nonneg (n : ℕ) : 0 ≤ to_unit n := by
  rw [to_unit]
  positivity

theorem to_unit_le_one {n : ℕ} (h : n ≤ 255) : to_unit n ≤ 1 := by
  rw [to_unit, div_le_one (by norm_num : (0 : ℚ) < 255)]
  exact_mod_cast h

theorem to_byte_to_unit (n : ℕ) : to_byte (to_unit n) = n := by
  rw [to_byte, to_unit]
  have h : (n : ℚ) / 255 * 255 = (n : ℚ) := by field_simp
  rw [h, Int.floor_natCast, Int.toNat_natCast]

theorem to_unit_mono : Monotone to_unit := by
  intro a b h
  rw [to_unit, to_unit]
  have : (a : ℚ) ≤ (b : ℚ) := by exact_mod_cast h
  linarith

theorem to_unit_max (a b : ℕ) : max (to_unit a) (to_unit b) = to_unit (max a b) :=
  (to_unit_mono.map_max).symm

theorem to_unit_min (a b : ℕ) : min (to_unit a) (to_unit b) = to_unit (min a b) :=
  (to_unit_mono.map_min).symm

theorem to_byte_unit_shift {n M m : ℕ} (hM : M ≤ 255) (hmn : m ≤ n) :
    to_byte (to_unit n + (1 - to_unit M - to_unit m)) = (n + 255) - (M + m) := by
  have hle : M + m ≤ n + 255 := by omega
  have e1 : (to_unit n + (1 - to_unit M - to_unit m)) * 255 =
      (((n + 255) - (M + m) : ℕ) : ℚ) := by
    rw [Nat.cast_sub hle]
    push_cast
    rw [to_unit, to_unit, to_unit]
    field_simp
    ring
  rw [to_byte, e1, Int.floor_natCast, Int.toNat_natCast]

theorem polar_hue_inversion_swap {r g b : ℕ} (hr : r ≤ 255) (hg : g ≤ 255) (hb : b ≤ 255) :
    polar_hue_inversion (r, g, b) = (r, b, g) := by
  simp only [polar_hue_inversion]
  rw [hls_hue_swap (to_unit_nonneg r) (to_unit_nonneg g) (to_unit_nonneg b)
    (to_unit_le_one hr) (to_unit_le_one hg) (to_unit_le_one hb)]
  show (to_byte (to_unit r), to_byte (to_unit b), to_byte (to_unit g)) = (r, b, g)
  rw [to_byte_to_unit, to_byte_to_unit, to_byte_to_unit]

theorem polar_lightness_inversion_shift {r g b : ℕ} (hr : r ≤ 255) (hg : g ≤ 255)
    (hb : b ≤ 255) :
    polar_lightness_inversion (r, g, b) =
      ((r + 255) - (max r (max g b) + min r (min g b)),
        (g + 255) - (max r (max g b) + min r (min g b)),
        (b + 255) - (max r (max g b) + min r (min g b))) := by
  simp only [polar_lightness_inversion]
  rw [hls_light_shift (to_unit_nonneg r) (to_unit_nonneg g) (to_unit_nonneg b)
    (to_unit_le_one hr) (to_unit_le_one hg) (to_unit_le_one hb)]
  rw [to_unit_max, to_unit_max, to_unit_min, to_unit_min]
  show (to_byte (to_unit r + (1 - to_unit (max r (max g b)) - to_unit (min r (min g b)))),
      to_byte (to_unit g + (1 - to_unit (max r (max g b)) - to_unit (min r (min g b)))),
      to_byte (to_unit b + (1 - to_unit (max r (max g b)) - to_unit (min r (min g b))))) = _
  have hM : max r (max g b) ≤ 255 := by omega
  rw [to_byte_unit_shift hM (by omega), to_byte_unit_shift hM (by omega),
    to_byte_unit_shift hM (by omega)]

/-- C4 (amended): the Polar-Hue and Polar-Lightness derivations of
render_yin_yang are involutive — in the exact-rational model they return the
original color exactly (Polar-Hue is the swap of the green and blue channels,
Polar-Lightness a constant shift of all channels). -/
theorem C4_hue_lightness_involutive (r g b : ℕ) (hr : r ≤ 255) (hg : g ≤ 255) (hb : b ≤ 255) :
    polar_hue_inversion (polar_hue_inversion (r, g, b)) = (r, g, b) ∧
    polar_lightness_inversion (polar_lightness_inversion (r, g, b)) = (r, g, b) := by
  constructor
  · rw [polar_hue_inversion_swap hr hg hb, polar_hue_inversion_swap hr hb hg]
  · rw [polar_lightness_inversion_shift hr hg hb,
      polar_lightness_inversion_shift (by omega) (by omega) (by omega)]
    simp only [Prod.mk.injEq]
    refine ⟨by omega, by omega, by omega⟩

/-- Witness for C4 at the color (3, 77, 200). -/
theorem C4_hue_lightness_involutive_witness :
    polar_hue_inversion (polar_hue_inversion (3, 77, 200)) = (3, 77, 200) ∧
    polar_lightness_inversion (polar_lightness_inversion (3, 77, 200)) = (3, 77, 200) :=
  C4_hue_lightness_involutive 3 77 200 (by norm_num) (by norm_num) (by norm_num)

/-- C4 counterexample: the Polar-Saturation derivation is not involutive within
any small tolerance. The fully saturated color (0, 0, 200) collapses to the
gray (100, 100, 100) (hue information is lost), and a second application
returns the red (200, 0, 0) — two components off by 200 from the original. -/
theorem C4_saturation_counterexample :
    polar_saturation_inversion (0, 0, 200) = (100, 100, 100) ∧
    polar_saturation_inversion (polar_saturation_inversion (0, 0, 200)) = (200, 0, 0) ∧
    polar_saturation_inversion (polar_saturation_inversion (0, 0, 200)) ≠ (0, 0, 200) := by
  have h1 : polar_saturation_inversion (0, 0, 200) = (100, 100, 100) := by
    norm_num [polar_saturation_inversion, rgb_to_hls, hls_to_rgb, colorsys_v, to_unit, to_byte,
      fract_eq_self_of, fract_eq_sub_one_of, fract_eq_add_one_of]
    decide
  have h2 : polar_saturation_inversion (100, 100, 100) = (200, 0, 0) := by
    norm_num [polar_saturation_inversion, rgb_to_hls, hls_to_rgb, colorsys_v, to_unit, to_byte,
      fract_eq_self_of, fract_eq_sub_one_of, fract_eq_add_one_of]
    decide
  refine ⟨h1, ?_, ?_⟩
  · rw [h1, h2]
  · rw [h1, h2]
    decide

/-- C5 (amended): in yin-yang-1-05.py the color-mode switch is a pure function
of the mode and Flow Color 1 and each polar mode is selected by the dialog
option bearing its name; in yin-yang-1-02.py the Polar Hue and Polar
Saturation options (mode indices 2 and 4) also bear matching names, but mode 3,
whose option is named "Flow Color 1 and Polar Lightness", performs the
component-wise RGB inversion, and no option is named "Flow Color 1 and Polar
Color". -/
theorem C5_color_mode_switch (c1 c2 : Color) :
    (yy_mode_options.getD YY_INVERTED_COLOR "" = "Flow Color 1 and Polar Color" ∧
      compute_flow_color_2 YY_INVERTED_COLOR c1 c2 =
        (255 - c1.1, 255 - c1.2.1, 255 - c1.2.2)) ∧
    (yy_mode_options.getD YY_POLAR_HUE "" = "Flow Color 1 and Polar Hue" ∧
      compute_flow_color_2 YY_POLAR_HUE c1 c2 = polar_hue_inversion c1) ∧
    (yy_mode_options.getD YY_POLAR_LIGHTNESS "" = "Flow Color 1 and Polar Lightness" ∧
      compute_flow_color_2 YY_POLAR_LIGHTNESS c1 c2 = polar_lightness_inversion c1) ∧
    (yy_mode_options.getD YY_POLAR_SATURATION "" = "Flow Color 1 and Polar Saturation" ∧
      compute_flow_color_2 YY_POLAR_SATURATION c1 c2 = polar_saturation_inversion c1) ∧
    (yy_mode_options_v102.getD 2 "" = "Flow Color 1 and Polar Hue" ∧
      compute_flow_color_2_v102 2 c1 c2 = polar_hue_inversion c1) ∧
    (yy_mode_options_v102.getD 4 "" = "Flow Color 1 and Polar Saturation" ∧
      compute_flow_color_2_v102 4 c1 c2 = polar_saturation_inversion c1) ∧
    (yy_mode_options_v102.getD 3 "" = "Flow Color 1 and Polar Lightness" ∧
      compute_flow_color_2_v102 3 c1 c2 =
        (255 - c1.1, 255 - c1.2.1, 255 - c1.2.2)) ∧
    "Flow Color 1 and Polar Color" ∉ yy_mode_options_v102 := by
  refine ⟨⟨rfl, rfl⟩, ⟨rfl, rfl⟩, ⟨rfl, rfl⟩, ⟨rfl, rfl⟩, ⟨rfl, rfl⟩, ⟨rfl, rfl⟩,
    ⟨rfl, rfl⟩, ?_⟩
  decide

/-- C5 counterexample: the claim ties each behavior to "the dialog option
bearing that name" in both scripts, but in yin-yang-1-02.py the option at mode
index 3, named "Flow Color 1 and Polar Lightness", yields the RGB inversion
(255, 255, 55) of (0, 0, 200) instead of the lightness-channel inversion
(55, 55, 255). -/
theorem C5_v102_lightness_counterexample :
    yy_mode_options_v102.getD 3 "" = "Flow Color 1 and Polar Lightness" ∧
    compute_flow_color_2_v102 3 (0, 0, 200) (9, 9, 9) = (255, 255, 55) ∧
    polar_lightness_inversion (0, 0, 200) = (55, 55, 255) ∧
    compute_flow_color_2_v102 3 (0, 0, 200) (9, 9, 9) ≠
      polar_lightness_inversion (0, 0, 200) := by
  have hl : polar_lightness_inversion (0, 0, 200) = (55, 55, 255) := by
    rw [polar_lightness_inversion_shift (by norm_num) (by norm_num) (by norm_num)]
    decide
  have hc : compute_flow_color_2_v102 3 (0, 0, 200) (9, 9, 9) = (255, 255, 55) := by decide
  refine ⟨rfl, hc, hl, ?_⟩
  rw [hc, hl]
  decide

theorem all_bind_of {α β : Type} {l : List α} {f : α → List β} {p : β → Bool}
    (h : ∀ a, (f a).all p = true) : (l.bind f).all p = true := by
  induction l with
  | nil => rfl
  | cons x xs ih =>
    have hb : (x :: xs).bind f = f x ++ xs.bind f := rfl
    rw [hb, List.all_append, ih, h x]
    rfl

theorem all_map_of {α β : Type} {l : List α} {f : α → β} {p : β → Bool}
    (h : ∀ a, p (f a) = true) : (l.map f).all p = true := by
  induction l with
  | nil => rfl
  | cons x xs ih =>
    rw [List.map_cons, List.all_cons, ih, h x]
    rfl

theorem fill_circle_trace_ok (color : Color) : (fill_circle_trace color).all cmd_ok = true := rfl

theorem draw_circle_selection_trace_ok (ctx : FlowerCtx) (x y : ℚ) :
    (draw_circle_selection_trace ctx x y).all cmd_ok = true := rfl

theorem fill_layer_trace_ok (color : Color) : (fill_layer_trace color).all cmd_ok = true := rfl

theorem draw_flower_circle_trace_ok (ctx : FlowerCtx) (x y : ℚ) (color : Color) :
    (draw_flower_circle_trace ctx x y color).all cmd_ok = true := by
  rw [draw_flower_circle_trace]
  split_ifs <;> rfl

theorem ring_loop_trace_ok (ctx : FlowerCtx) (color : Color) (radius : ℚ) :
    ∀ (n : ℕ) (angle : ℚ) (p : ℚ × ℚ),
      (ring_loop_trace ctx color radius n angle p).all cmd_ok = true := by
  intro n
  induction n with
  | zero => intro angle p; rfl
  | succ m ih =>
    intro angle p
    simp only [ring_loop_trace, List.all_append, ih, draw_flower_circle_trace_ok,
      Bool.and_self]

theorem draw_1st_ring_trace_ok (ctx : FlowerCtx) (color : Color) :
    (draw_1st_ring_trace ctx color).all cmd_ok = true :=
  ring_loop_trace_ok ctx color _ 6 0 _

theorem draw_2nd_ring_trace_ok (ctx : FlowerCtx) (color : Color) :
    (draw_2nd_ring_trace ctx color).all cmd_ok = true :=
  ring_loop_trace_ok ctx color _ 6 0 _

theorem draw_3rd_ring_trace_ok (ctx : FlowerCtx) (color : Color) :
    (draw_3rd_ring_trace ctx color).all cmd_ok = true :=
  all_bind_of (fun p => draw_flower_circle_trace_ok ctx p.1 p.2 color)

theorem draw_4th_ring_trace_ok (ctx : FlowerCtx) (color : Color) :
    (draw_4th_ring_trace ctx color).all cmd_ok = true := by
  refine all_bind_of (fun i => ?_)
  simp only [List.all_append, draw_flower_circle_trace_ok, Bool.and_self]

theorem draw_5th_ring_trace_ok (ctx : FlowerCtx) (color : Color) :
    (draw_5th_ring_trace ctx color).all cmd_ok = true :=
  all_bind_of (fun i => draw_flower_circle_trace_ok ctx _ _ color)

theorem pass_circle_trace_ok (ctx : FlowerCtx) (color : Color) (idxs : List ℕ) (a1 a2 : ℚ) :
    (pass_circle_trace ctx color idxs a1 a2).all cmd_ok = true :=
  all_bind_of (fun idx => draw_flower_circle_trace_ok ctx _ _ color)

theorem draw_6th_ring_trace_ok (ctx : FlowerCtx) (color : Color) :
    (draw_6th_ring_trace ctx color).all cmd_ok = true := by
  simp only [draw_6th_ring_trace, List.all_append, pass_circle_trace_ok, Bool.and_self]

theorem draw_center_circle_trace_ok (ctx : FlowerCtx) (color : Color) :
    (draw_center_circle_trace ctx color).all cmd_ok = true :=
  draw_flower_circle_trace_ok ctx _ _ color

theorem draw_frame_trace_ok (ctx : FlowerCtx) (color : Color) :
    (draw_frame_trace ctx color).all cmd_ok = true := by
  rw [draw_frame_trace]
  split_ifs <;> rfl

theorem draw_black_and_white_trace_ok (ctx : FlowerCtx) :
    (draw_black_and_white_trace ctx).all cmd_ok = true := by
  simp only [draw_black_and_white_trace, List.all_append, draw_center_circle_trace_ok,
    draw_1st_ring_trace_ok, draw_2nd_ring_trace_ok, draw_3rd_ring_trace_ok,
    draw_4th_ring_trace_ok, draw_5th_ring_trace_ok, draw_6th_ring_trace_ok,
    draw_frame_trace_ok, Bool.and_self, Bool.true_and, List.all_cons, List.all_nil,
    Bool.and_true]
  rfl

theorem create_bw_alpha_trace_ok (ctx : FlowerCtx) :
    (create_bw_alpha_trace ctx).all cmd_ok = true := by
  rw [create_bw_alpha_trace]
  have hmap : ((extra_ring_points ctx).map
      (fun p => Cmd.selectEllipse CHANNEL_OP_ADD
        (p.1 - ((ctx.circle_radius : ℚ) +
          (if ctx.flower_type = LINES then ((ctx.line_width / 2 : ℕ) : ℚ) else 0)))
        (p.2 - ((ctx.circle_radius : ℚ) +
          (if ctx.flower_type = LINES then ((ctx.line_width / 2 : ℕ) : ℚ) else 0)))
        ((ctx.circle_diameter : ℚ) +
          (if ctx.flower_type = LINES then (ctx.line_width : ℚ) else 0))
        ((ctx.circle_diameter : ℚ) +
          (if ctx.flower_type = LINES then (ctx.line_width : ℚ) else 0)))).all cmd_ok =
      true := all_map_of (fun p => rfl)
  split_ifs <;>
    simp only [List.all_append, List.all_cons, List.all_nil, hmap, fill_layer_trace_ok,
      draw_circle_selection_trace_ok, fill_circle_trace_ok, draw_frame_trace_ok,
      Bool.and_self, Bool.and_true, Bool.true_and] <;>
    rfl

theorem draw_colored_flower_trace_ok (ctx : FlowerCtx) (colors : List Color)
    (frame_color : Color) :
    (draw_colored_flower_trace ctx colors frame_color).all cmd_ok = true := by
  simp only [draw_colored_flower_trace, List.all_append, draw_center_circle_trace_ok,
    draw_1st_ring_trace_ok, draw_2nd_ring_trace_ok, draw_3rd_ring_trace_ok,
    draw_4th_ring_trace_ok, draw_5th_ring_trace_ok, draw_6th_ring_trace_ok,
    draw_frame_trace_ok, Bool.and_self, Bool.true_and, List.all_cons, List.all_nil,
    Bool.and_true]
  rfl

theorem render_flower_mid_trace_ok (symbol_radius mode flower_part : ℕ)
    (c1 c2 c3 c4 c5 c6 c7 : Color) (line_w frame_w : ℕ) (frame_col : Color)
    (stream : ℕ → ℕ) (fsin fcos : ℚ → ℚ) :
    (render_flower_mid_trace symbol_radius mode flower_part c1 c2 c3 c4 c5 c6 c7
      line_w frame_w frame_col stream fsin fcos).all cmd_ok = true := by
  rw [render_flower_mid_trace]
  split_ifs <;>
    simp only [List.all_cons, List.all_append, List.all_nil, fill_layer_trace_ok,
      draw_colored_flower_trace_ok, draw_black_and_white_trace_ok, create_bw_alpha_trace_ok,
      Bool.and_self, Bool.and_true, Bool.true_and] <;>
    rfl

theorem draw_flow_selection_trace_ok (ctx : YyCtx) (op : ℕ) :
    (draw_flow_selection_trace ctx op).all cmd_ok = true := rfl

theorem draw_side_trace_ok (ctx : YyCtx) (flow_color : Color) (i : ℕ) :
    (draw_side_trace ctx flow_color i).all cmd_ok = true := by
  rw [draw_side_trace]
  split_ifs <;> rfl

theorem rim_trace_ok (ctx : YyCtx) (rim_color : Color) :
    (rim_trace ctx rim_color).all cmd_ok = true := by
  rw [rim_trace]
  split_ifs <;> rfl

theorem render_yin_yang_mid_trace_ok (symbol_diameter mode : ℕ)
    (flow_color_1 flow_color_2 rim_color : Color) (rim_width eye_divisor : ℕ)
    (direction : Bool) (frame_count : ℕ) (frad : ℚ → ℚ) :
    (render_yin_yang_mid_trace symbol_diameter mode flow_color_1 flow_color_2 rim_color
      rim_width eye_divisor direction frame_count frad).all cmd_ok = true := by
  rw [render_yin_yang_mid_trace]
  have hanim : ((applied_angles frame_count direction).bind (fun a =>
      [Cmd.layerOp, Cmd.layerOp, Cmd.layerOp, Cmd.rotateLayer (frad a),
        Cmd.displaysFlush, Cmd.cropImage])).all cmd_ok = true :=
    all_bind_of (fun a => rfl)
  split_ifs <;>
    simp only [List.all_append, List.all_cons, List.all_nil, draw_side_trace_ok,
      rim_trace_ok, hanim, Bool.and_self, Bool.and_true, Bool.true_and] <;>
    rfl

theorem cmd_ok_elim {c : Cmd} (h : cmd_ok c = true) :
    isUndoStart c = false ∧ isUndoEnd c = false := by
  rw [cmd_ok, Bool.and_eq_true, Bool.not_eq_true', Bool.not_eq_true'] at h
  exact h

theorem cmd_quiet_elim {c : Cmd} (h : cmd_quiet c = true) :
    isUndoStart c = false ∧ isUndoEnd c = false ∧ isDraw c = false := by
  rw [cmd_quiet, Bool.and_eq_true, Bool.not_eq_true'] at h
  exact ⟨(cmd_ok_elim h.1).1, (cmd_ok_elim h.1).2, h.2⟩

theorem bracketScan2_of {C : List Cmd} (hC : C.all cmd_quiet = true) :
    bracketScan2 C = true := by
  induction C with
  | nil => rfl
  | cons c cs ih =>
    rw [List.all_cons, Bool.and_eq_true] at hC
    rw [bracketScan2, if_pos hC.1]
    exact ih hC.2

theorem bracketScan1_of {B C : List Cmd} (hB : B.all cmd_ok = true)
    (hC : C.all cmd_quiet = true) : bracketScan1 (B ++ Cmd.undoEnd :: C) = true := by
  induction B with
  | nil =>
    rw [List.nil_append, bracketScan1,
      if_pos (show isUndoEnd Cmd.undoEnd = true from rfl)]
    exact bracketScan2_of hC
  | cons b bs ih =>
    rw [List.all_cons, Bool.and_eq_true] at hB
    obtain ⟨h1, h2⟩ := cmd_ok_elim hB.1
    rw [List.cons_append, bracketScan1, h2, h1]
    simp only [Bool.false_eq_true, if_false]
    exact ih hB.2

theorem bracketScan0_of {A B C : List Cmd} (hA : A.all cmd_quiet = true)
    (hB : B.all cmd_ok = true) (hC : C.all cmd_quiet = true) :
    bracketScan0 (A ++ Cmd.undoStart :: (B ++ Cmd.undoEnd :: C)) = true := by
  induction A with
  | nil =>
    rw [List.nil_append, bracketScan0,
      if_pos (show isUndoStart Cmd.undoStart = true from rfl)]
    exact bracketScan1_of hB hC
  | cons a as ih =>
    rw [List.all_cons, Bool.and_eq_true] at hA
    obtain ⟨h1, _, _⟩ := cmd_quiet_elim hA.1
    rw [List.cons_append, bracketScan0, h1]
    simp only [Bool.false_eq_true, if_false, if_pos hA.1]
    exact ih hA.2

theorem countP_undo_of_ok {B : List Cmd} (hB : B.all cmd_ok = true) :
    B.countP (fun c => isUndoStart c) = 0 ∧ B.countP (fun c => isUndoEnd c) = 0 := by
  constructor <;>
    exact List.countP_eq_zero.mpr (fun a ha => by
      have h := cmd_ok_elim (List.all_eq_true.mp hB a ha)
      simp [h.1, h.2])

theorem countP_undo_of_quiet {A : List Cmd} (hA : A.all cmd_quiet = true) :
    A.countP (fun c => isUndoStart c) = 0 ∧ A.countP (fun c => isUndoEnd c) = 0 := by
  constructor <;>
    exact List.countP_eq_zero.mpr (fun a ha => by
      have h := cmd_quiet_elim (List.all_eq_true.mp hA a ha)
      simp [h.1, h.2.1])

theorem undo_bracket_spec {A B C : List Cmd} (hA : A.all cmd_quiet = true)
    (hB : B.all cmd_ok = true) (hC : C.all cmd_quiet = true) :
    singleUndoBracket (A ++ Cmd.undoStart :: (B ++ Cmd.undoEnd :: C)) = true ∧
    (A ++ Cmd.undoStart :: (B ++ Cmd.undoEnd :: C)).countP (fun c => isUndoStart c) = 1 ∧
    (A ++ Cmd.undoStart :: (B ++ Cmd.undoEnd :: C)).countP (fun c => isUndoEnd c) = 1 := by
  refine ⟨bracketScan0_of hA hB hC, ?_, ?_⟩
  · rw [List.countP_append, List.countP_cons, List.countP_append, List.countP_cons,
      (countP_undo_of_ok hB).1, (countP_undo_of_quiet hA).1, (countP_undo_of_quiet hC).1]
    rfl
  · rw [List.countP_append, List.countP_cons, List.countP_append, List.countP_cons,
      (countP_undo_of_ok hB).2, (countP_undo_of_quiet hA).2, (countP_undo_of_quiet hC).2]
    rfl

/-- C8: both render entry points wrap the whole operation in a single undo
group: the trace has exactly one undo-group start and one undo-group end, no
selection, fill, merge or transform draw command precedes the start, and none
follows the end. -/
theorem C8_single_undo_group (symbol_radius mode flower_part : ℕ)
    (c1 c2 c3 c4 c5 c6 c7 : Color) (line_w frame_w : ℕ) (frame_col : Color)
    (stream : ℕ → ℕ) (fsin fcos : ℚ → ℚ) (symbol_diameter ymode : ℕ)
    (flow_color_1 flow_color_2 rim_color : Color) (rim_width eye_divisor : ℕ)
    (direction : Bool) (frame_count : ℕ) (frad : ℚ → ℚ) :
    (singleUndoBracket (render_flower_trace symbol_radius mode flower_part c1 c2 c3 c4 c5
        c6 c7 line_w frame_w frame_col stream fsin fcos) = true ∧
      (render_flower_trace symbol_radius mode flower_part c1 c2 c3 c4 c5 c6 c7 line_w
        frame_w frame_col stream fsin fcos).countP (fun c => isUndoStart c) = 1 ∧
      (render_flower_trace symbol_radius mode flower_part c1 c2 c3 c4 c5 c6 c7 line_w
        frame_w frame_col stream fsin fcos).countP (fun c => isUndoEnd c) = 1) ∧
    (singleUndoBracket (render_yin_yang_trace symbol_diameter ymode flow_color_1
        flow_color_2 rim_color rim_width eye_divisor direction frame_count frad) = true ∧
      (render_yin_yang_trace symbol_diameter ymode flow_color_1 flow_color_2 rim_color
        rim_width eye_divisor direction frame_count frad).countP
        (fun c => isUndoStart c) = 1 ∧
      (render_yin_yang_trace symbol_diameter ymode flow_color_1 flow_color_2 rim_color
        rim_width eye_divisor direction frame_count frad).countP
        (fun c => isUndoEnd c) = 1) := by
  constructor
  · rw [render_flower_trace]
    exact undo_bracket_spec rfl
      (render_flower_mid_trace_ok symbol_radius mode flower_part c1 c2 c3 c4 c5 c6 c7
        line_w frame_w frame_col stream fsin fcos) rfl
  · rw [render_yin_yang_trace]
    exact undo_bracket_spec rfl
      (render_yin_yang_mid_trace_ok symbol_diameter ymode flow_color_1 flow_color_2
        rim_color rim_width eye_divisor direction frame_count frad) rfl

theorem draw_frame_trace_zero (ctx : FlowerCtx) (color : Color) (h : ctx.frame_width = 0) :
    draw_frame_trace ctx color = [] := by
  rw [draw_frame_trace, if_neg]
  simp [h]

theorem draw_black_and_white_trace_zero (ctx : FlowerCtx) (h : ctx.frame_width = 0) :
    draw_black_and_white_trace ctx = draw_black_and_white_trace_nf ctx := by
  rw [draw_black_and_white_trace, draw_black_and_white_trace_nf,
    draw_frame_trace_zero ctx WHITE h, List.append_nil]

theorem create_bw_alpha_trace_zero (ctx : FlowerCtx) (h : ctx.frame_width = 0) :
    create_bw_alpha_trace ctx = create_bw_alpha_trace_nf ctx := by
  rw [create_bw_alpha_trace, create_bw_alpha_trace_nf, draw_frame_trace_zero ctx WHITE h]
  simp only [List.append_nil, List.nil_append]

theorem draw_colored_flower_trace_zero (ctx : FlowerCtx) (colors : List Color)
    (frame_color : Color) (h : ctx.frame_width = 0) :
    draw_colored_flower_trace ctx colors frame_color =
      draw_colored_flower_trace_nf ctx colors := by
  rw [draw_colored_flower_trace, draw_colored_flower_trace_nf,
    draw_frame_trace_zero ctx frame_color h]
  simp only [List.append_nil, List.nil_append]

theorem rim_trace_zero (ctx : YyCtx) (color : Color) (h : ctx.rim_width = 0) :
    rim_trace ctx color = [] := by
  rw [rim_trace, if_neg]
  simp [h]

/-- C10: a zero width disables the surrounding border without affecting
anything else. With `frame_width = 0`, `draw_frame` emits no commands at all
and the flower trace equals the trace of the same run with every frame step
removed; with `rim_width = 0`, the yin-yang rim block emits no commands and
the trace equals the trace of the same run with the rim block removed. -/
theorem C10_zero_width_disables_border (symbol_radius mode flower_part : ℕ)
    (c1 c2 c3 c4 c5 c6 c7 : Color) (line_w : ℕ) (frame_col : Color)
    (stream : ℕ → ℕ) (fsin fcos : ℚ → ℚ) (symbol_diameter ymode : ℕ)
    (flow_color_1 flow_color_2 rim_color : Color) (eye_divisor : ℕ)
    (direction : Bool) (frame_count : ℕ) (frad : ℚ → ℚ) :
    draw_frame_trace (flower_ctx symbol_radius flower_part line_w 0 fsin fcos)
        frame_col = [] ∧
    render_flower_trace symbol_radius mode flower_part c1 c2 c3 c4 c5 c6 c7 line_w 0
        frame_col stream fsin fcos =
      render_flower_trace_nf symbol_radius mode flower_part c1 c2 c3 c4 c5 c6 c7 line_w 0
        stream fsin fcos ∧
    rim_trace (yy_ctx symbol_diameter ymode 0 eye_divisor) rim_color = [] ∧
    render_yin_yang_trace symbol_diameter ymode flow_color_1 flow_color_2 rim_color 0
        eye_divisor direction frame_count frad =
      render_yin_yang_trace_nr symbol_diameter ymode flow_color_1 flow_color_2 rim_color 0
        eye_divisor direction frame_count frad := by
  have hf : (flower_ctx symbol_radius flower_part line_w 0 fsin fcos).frame_width = 0 := rfl
  have hy : (yy_ctx symbol_diameter ymode 0 eye_divisor).rim_width = 0 := rfl
  refine ⟨draw_frame_trace_zero _ _ hf, ?_, rim_trace_zero _ _ hy, ?_⟩
  · rw [render_flower_trace, render_flower_mid_trace, render_flower_trace_nf]
    rw [draw_black_and_white_trace_zero _ hf, create_bw_alpha_trace_zero _ hf,
      draw_colored_flower_trace_zero _ _ _ hf]
  · rw [render_yin_yang_trace, render_yin_yang_mid_trace, render_yin_yang_trace_nr]
    rw [rim_trace_zero _ _ hy]
    simp only [List.append_nil, List.nil_append]
